import Mathlib

/-!
Verification development for the cs40l26 vibrator HAL
(`src/vibrator/cs40l26/Vibrator.cpp`).

The C++ source is shallowly embedded below.  Machine integers are
modelled as `Nat`/`Int`, with an explicit `% 2 ^ w` or a truncating
conversion exactly where the C++ narrows or wraps.  `float` values are
modelled as exact rationals (`ℚ`); float literals from the source are
written as the corresponding decimal fractions.  Stateful code is
modelled by explicit state passing; calls into the hardware adapters
(`HwApi`/`HwGPIO`, which live outside this file's source) are modelled
by an environment record holding the adapters' answers plus an ordered
trace of the calls that were issued.
-/

namespace Vib

instance {ε α : Type} [DecidableEq ε] [DecidableEq α] : DecidableEq (Except ε α) :=
  fun a b =>
    match a, b with
    | .ok x, .ok y =>
      if h : x = y then isTrue (by rw [h]) else isFalse (fun hc => by cases hc; exact h rfl)
    | .error x, .error y =>
      if h : x = y then isTrue (by rw [h]) else isFalse (fun hc => by cases hc; exact h rfl)
    | .ok _, .error _ => isFalse (fun hc => by cases hc)
    | .error _, .ok _ => isFalse (fun hc => by cases hc)

/-- C `roundf`/`lround`: round half away from zero.  `ratFloor x` is
`Int.floor` written so that the kernel can evaluate it on literals. -/
def ratFloor (x : ℚ) : ℤ := x.num / (x.den : ℤ)

/-- Round half away from zero, the semantics of C's `roundf`/`std::round`. -/
def roundAway (x : ℚ) : ℤ :=
  if x < 0 then -(ratFloor (-x + 1/2)) else ratFloor (x + 1/2)

/-- Conversion of an integer result to `uint16_t` (assignment through a
`uint16_t *output` in `fToU16`); reachable values are in `[0, 65535]`. -/
def u16ofZ (z : ℤ) : ℕ := (z.emod 65536).toNat

/-- Binder exception codes used through `ndk::ScopedAStatus::fromExceptionCode`. -/
inductive Status where
  | ok
  | illegalArgument
  | illegalState
  | unsupportedOperation
deriving DecidableEq, Repr

/- Constants from the top of Vibrator.cpp. -/
def FF_CUSTOM_DATA_LEN_MAX_COMP : ℕ := 2044
def FF_CUSTOM_DATA_LEN_MAX_PWLE : ℕ := 2302
def VOLTAGE_SCALE_MAX : ℕ := 100
def MAX_COLD_START_LATENCY_MS : ℕ := 6
def COMPOSE_DELAY_MAX_MS : ℤ := 10000
def COMPOSE_SIZE_MAX : ℕ := 254
def COMPOSE_PWLE_SIZE_MAX_DEFAULT : ℕ := 127
def COMPOSE_PWLE_PRIMITIVE_DURATION_MAX_MS : ℤ := 16383
def WT_LEN_CALCD : ℕ := 0x00800000
def PWLE_CHIRP_BIT : ℕ := 0x8
def PWLE_BRAKE_BIT : ℕ := 0x4
def PWLE_AMP_REG_BIT : ℕ := 0x2
def PWLE_LEVEL_MIN : ℚ := 0
def PWLE_LEVEL_MAX : ℚ := 1
def CS40L26_PWLE_LEVEL_MIN : ℚ := -1
def CS40L26_PWLE_LEVEL_MAX : ℚ := 9995118 / 10000000
def PWLE_FREQUENCY_MIN_HZ : ℚ := 1
def PWLE_FREQUENCY_MAX_HZ : ℚ := 1000

/- `enum WaveformIndex` (the physical table has indices 0..13,
`WAVEFORM_MAX_PHYSICAL_INDEX = 14 = WAVEFORM_COMPOSE`, `WAVEFORM_PWLE = 15`,
`WAVEFORM_MAX_INDEX = 16`). -/
def WAVEFORM_LONG_VIBRATION_EFFECT_INDEX : ℕ := 0
def WAVEFORM_CLICK_INDEX : ℕ := 2
def WAVEFORM_SHORT_VIBRATION_EFFECT_INDEX : ℕ := 3
def WAVEFORM_THUD_INDEX : ℕ := 4
def WAVEFORM_SPIN_INDEX : ℕ := 5
def WAVEFORM_QUICK_RISE_INDEX : ℕ := 6
def WAVEFORM_SLOW_RISE_INDEX : ℕ := 7
def WAVEFORM_QUICK_FALL_INDEX : ℕ := 8
def WAVEFORM_LIGHT_TICK_INDEX : ℕ := 9
def WAVEFORM_LOW_TICK_INDEX : ℕ := 10
def WAVEFORM_MAX_PHYSICAL_INDEX : ℕ := 14
def WAVEFORM_COMPOSE : ℕ := 14
def WAVEFORM_PWLE : ℕ := 15
def WAVEFORM_MAX_INDEX : ℕ := 16
def FF_MAX_EFFECTS : ℕ := 96

/-- Ghost record of one call to `DspMemChunk::constructPwleSegment`
(the already fixed-point-converted field values, in call order).  It is
recorded alongside the byte stream so that "which segments were
emitted" can be stated; it does not influence the bytes. -/
structure PwleSeg where
  delay : ℕ
  amplitude : ℕ
  frequency : ℕ
  flags : ℕ
deriving DecidableEq, Repr

/-- `class DspMemChunk`.  `buf` is the committed prefix of the backing
buffer (`head` up to `_current`); `cap` is `_max - head`; `cache` is the
32-bit accumulator `_cache`; `cachebits` is `_cachebits`.  The running
byte length `bytes` always equals `buf.length` (both advance by 4
together in `write`), so a separate field is not kept; `size` below
returns it. -/
structure DspMemChunk where
  buf : List ℕ
  cap : ℕ
  wtype : ℕ
  cache : ℕ
  cachebits : ℕ
  segs : List PwleSeg
deriving DecidableEq, Repr

namespace DspMemChunk

/-- `DspMemChunk::write(nbits, val)`, made total with a fuel argument:
the C++ recursion terminates whenever `_cachebits ≤ 24` (an invariant of
every constructed chunk), and `fuel = nbits + 2` bounds its depth there.
On fuel exhaustion (unreachable under that invariant) we answer like the
out-of-space case. -/
def writeAux : ℕ → DspMemChunk → ℕ → ℕ → DspMemChunk × Int
  | 0, ch, _, _ => (ch, -28)
  | fuel + 1, ch, nbits, val =>
    let nwrite := min (24 - ch.cachebits) nbits
    let cache1 := ((ch.cache <<< nwrite) % 2 ^ 32) ||| (val >>> (nbits - nwrite))
    let cachebits1 := ch.cachebits + nwrite
    let nbits1 := nbits - nwrite
    if cachebits1 = 24 then
      if ch.buf.length = ch.cap then
        ({ ch with cache := cache1, cachebits := cachebits1 }, -28)
      else
        let c0 := cache1 &&& 0xFFFFFF
        let b0 := (c0 &&& 0xFF000000) >>> 24
        let c1 := (c0 <<< 8) % 2 ^ 32
        let b1 := (c1 &&& 0xFF000000) >>> 24
        let c2 := (c1 <<< 8) % 2 ^ 32
        let b2 := (c2 &&& 0xFF000000) >>> 24
        let c3 := (c2 <<< 8) % 2 ^ 32
        let b3 := (c3 &&& 0xFF000000) >>> 24
        let c4 := (c3 <<< 8) % 2 ^ 32
        let ch2 : DspMemChunk :=
          { ch with buf := ch.buf ++ [b0, b1, b2, b3], cache := c4, cachebits := 0 }
        if nbits1 ≠ 0 then writeAux fuel ch2 nbits1 val else (ch2, 0)
    else
      let ch2 : DspMemChunk := { ch with cache := cache1, cachebits := cachebits1 }
      if nbits1 ≠ 0 then writeAux fuel ch2 nbits1 val else (ch2, 0)

/-- `DspMemChunk::write`. -/
def write (ch : DspMemChunk) (nbits val : ℕ) : DspMemChunk × Int :=
  writeAux (nbits + 2) ch nbits val

/-- `DspMemChunk::size()` (the `bytes` member). -/
def size (ch : DspMemChunk) : ℕ := ch.buf.length

/-- `DspMemChunk::fToU16`.  Bounds are checked on the rational input,
then the value is scaled and rounded (C `roundf`) and stored through a
`uint16_t *`. -/
def fToU16 (input scale lo hi : ℚ) : Except Int ℕ :=
  if input < lo ∨ input > hi then .error (-34)
  else .ok (u16ofZ (roundAway (input * scale)))

/-- `DspMemChunk::constructPwleSegment`.  The write return values are
discarded, exactly as in the source (the function returns `void`).  The
ghost `segs` field records the call. -/
def constructPwleSegment (ch : DspMemChunk)
    (delay amplitude frequency flags vbemfTarget : ℕ) : DspMemChunk :=
  let ch1 := (ch.write 16 delay).1
  let ch2 := (ch1.write 12 amplitude).1
  let ch3 := (ch2.write 12 frequency).1
  let ch4 := (ch3.write 8 ((flags ||| 1) <<< 4)).1
  let ch5 := if flags &&& PWLE_AMP_REG_BIT ≠ 0 then (ch4.write 24 vbemfTarget).1 else ch4
  { ch5 with segs := ch5.segs ++ [⟨delay, amplitude, frequency, flags⟩] }

/-- `DspMemChunk::constructActiveSegment`. -/
def constructActiveSegment (ch : DspMemChunk) (duration : ℤ)
    (amplitude frequency : ℚ) (chirp : Bool) : DspMemChunk × Int :=
  if ch.wtype ≠ WAVEFORM_PWLE then (ch, -33)
  else
    match fToU16 (duration : ℚ) 4 0 ((COMPOSE_PWLE_PRIMITIVE_DURATION_MAX_MS : ℤ) : ℚ),
          fToU16 amplitude 2048 CS40L26_PWLE_LEVEL_MIN CS40L26_PWLE_LEVEL_MAX,
          fToU16 frequency 4 PWLE_FREQUENCY_MIN_HZ PWLE_FREQUENCY_MAX_HZ with
    | .ok delay, .ok amp, .ok freq =>
      let flags := if chirp then PWLE_CHIRP_BIT else 0
      (ch.constructPwleSegment delay amp freq flags 0, 0)
    | _, _, _ => (ch, -34)

/-- `DspMemChunk::constructBrakingSegment`.  Braking kinds are the
`Braking` enum: `0 = NONE`, `1 = CLAB`; the brake bit is set iff the
kind is nonzero.  The frequency conversion of `PWLE_FREQUENCY_MIN_HZ`
ignores its status in the source (it cannot fail). -/
def constructBrakingSegment (ch : DspMemChunk) (duration : ℤ)
    (brakingType : ℕ) : DspMemChunk × Int :=
  if ch.wtype ≠ WAVEFORM_PWLE then (ch, -33)
  else
    match fToU16 (duration : ℚ) 4 0 ((COMPOSE_PWLE_PRIMITIVE_DURATION_MAX_MS : ℤ) : ℚ) with
    | .error _ => (ch, -34)
    | .ok delay =>
      let freq :=
        match fToU16 PWLE_FREQUENCY_MIN_HZ 4 PWLE_FREQUENCY_MIN_HZ PWLE_FREQUENCY_MAX_HZ with
        | .ok f => f
        | .error _ => 0
      let flags := if brakingType ≠ 0 then PWLE_BRAKE_BIT else 0
      (ch.constructPwleSegment delay 0 freq flags 0, 0)

/-- `DspMemChunk::constructComposeSegment`. -/
def constructComposeSegment (ch : DspMemChunk)
    (effectVolLevel effectIndex repeatCount flags nextEffectDelay : ℕ) :
    DspMemChunk × Int :=
  if ch.wtype ≠ WAVEFORM_COMPOSE then (ch, -33)
  else if effectVolLevel > 100 ∨ effectIndex > WAVEFORM_MAX_PHYSICAL_INDEX then (ch, -22)
  else
    let ch1 := (ch.write 8 effectVolLevel).1
    let ch2 := (ch1.write 8 effectIndex).1
    let ch3 := (ch2.write 8 repeatCount).1
    let ch4 := (ch3.write 8 flags).1
    let ch5 := (ch4.write 16 nextEffectDelay).1
    (ch5, 0)

/-- The `DspMemChunk(type, size)` constructor: a zeroed buffer of
capacity `size`, then the type-dependent header writes. -/
def init (type size : ℕ) : DspMemChunk :=
  let ch : DspMemChunk :=
    { buf := [], cap := size, wtype := type, cache := 0, cachebits := 0, segs := [] }
  if type = WAVEFORM_COMPOSE then
    let ch1 := (ch.write 8 0).1     -- Padding
    let ch2 := (ch1.write 8 0).1    -- nsections placeholder
    (ch2.write 8 0).1               -- repeat
  else if type = WAVEFORM_PWLE then
    let ch1 := (ch.write 24 0).1    -- Waveform length placeholder
    let ch2 := (ch1.write 8 0).1    -- Repeat
    let ch3 := (ch2.write 12 0).1   -- Wait time between repeats
    (ch3.write 8 0).1               -- nsections placeholder
  else ch

/-- `DspMemChunk::flush()`. -/
def flush (ch : DspMemChunk) : DspMemChunk × Int :=
  if ch.cachebits = 0 then (ch, 0) else ch.write (24 - ch.cachebits) 0

/-- `DspMemChunk::updateWLength`.  The `front() == nullptr` branch is
unrepresentable here (the model's buffer always exists). -/
def updateWLength (ch : DspMemChunk) (totalDuration : ℕ) : DspMemChunk × Int :=
  if ch.wtype ≠ WAVEFORM_PWLE then (ch, -33)
  else if totalDuration > 0x7FFFF then (ch, -22)
  else
    let td := (totalDuration * 8) ||| WT_LEN_CALCD
    let buf1 := ch.buf.set 0 ((td >>> 24) &&& 0xFF)
    let buf2 := buf1.set 1 ((td >>> 16) &&& 0xFF)
    let buf3 := buf2.set 2 ((td >>> 8) &&& 0xFF)
    let buf4 := buf3.set 3 (td &&& 0xFF)
    ({ ch with buf := buf4 }, 0)

/-- `DspMemChunk::updateNSection`. -/
def updateNSection (ch : DspMemChunk) (segmentIdx : ℕ) : DspMemChunk × Int :=
  if ch.wtype = WAVEFORM_COMPOSE then
    if segmentIdx > COMPOSE_SIZE_MAX + 1 then (ch, -22)
    else ({ ch with buf := ch.buf.set 2 (0xFF &&& segmentIdx) }, 0)
  else if ch.wtype = WAVEFORM_PWLE then
    if segmentIdx > COMPOSE_PWLE_SIZE_MAX_DEFAULT then (ch, -22)
    else
      let buf1 := ch.buf.set 7 (ch.buf.getD 7 0 ||| ((0xF0 &&& segmentIdx) >>> 4))
      let buf2 := buf1.set 9 (buf1.getD 9 0 ||| ((0x0F &&& segmentIdx) <<< 4))
      ({ ch with buf := buf2 }, 0)
  else (ch, -33)

end DspMemChunk

/-- `static uint16_t amplitudeToScale(float amplitude, float maximum)`.
The result is the value of `std::round(ratio)`; the narrowing of that
value to `uint16_t` on return is the identity for every reachable call
(all call sites pass `0 ≤ amplitude ≤ maximum` or `maximum = 0`). -/
def amplitudeToScale (amplitude maximum : ℚ) : ℤ :=
  let ratio : ℚ := if maximum ≠ 0 then amplitude / maximum * 100 else 100
  let ratio2 : ℚ := if maximum = 0 ∨ ratio > 100 then 100 else ratio
  roundAway ratio2

/-- Calibration-dependent state read by the composition paths: the
per-category volume ranges (`mTickEffectVol` etc., loaded from `HwCal`)
and the supported-primitive bitmask. -/
structure Cal where
  tickVol : ℕ × ℕ
  clickVol : ℕ × ℕ
  longVol : ℕ × ℕ
  supportedPrimitivesBits : ℕ
deriving DecidableEq, Repr

/-- The fixed `mPrimitiveMaxScale` table set in the constructor. -/
def mPrimitiveMaxScale : List ℚ :=
  [1, 95/100, 75/100, 9/10, 1, 1, 1, 75/100, 75/100]

/-- The fixed `mPrimitiveMinScale` table set in the constructor. -/
def mPrimitiveMinScale : List ℚ :=
  [0, 1/100, 11/100, 23/100, 0, 1/4, 2/100, 3/100, 16/100]

/-- The fixed `mEffectDurations` table set in the constructor
(14 physical waveform durations in milliseconds). -/
def mEffectDurations : List ℕ :=
  [1000, 100, 12, 1000, 300, 130, 150, 500, 100, 5, 12, 1000, 1000, 1000]

/-- `Vibrator::intensityToVolLevel`.  `calc` is
`lround(intst * (v[1] - v[0])) + v[0]` on `uint32_t` volumes (the
subtraction and the final addition wrap modulo `2 ^ 32`). -/
def intensityToVolLevel (cal : Cal) (intensity : ℚ) (effectIndex : ℕ) : ℕ :=
  let calcVol := fun (intst : ℚ) (v : ℕ × ℕ) =>
    ((roundAway (intst * ((((v.2 : ℤ) - (v.1 : ℤ)).emod (2 ^ 32) : ℤ) : ℚ))
        + (v.1 : ℤ)).emod (2 ^ 32)).toNat
  if effectIndex = WAVEFORM_LIGHT_TICK_INDEX then calcVol intensity cal.tickVol
  else if effectIndex = WAVEFORM_QUICK_RISE_INDEX ∨ effectIndex = WAVEFORM_QUICK_FALL_INDEX then
    calcVol intensity cal.longVol
  else calcVol intensity cal.clickVol

/-- `Vibrator::getPrimitiveDetails`.  `CompositePrimitive` values:
`NOOP = 0, CLICK = 1, THUD = 2, SPIN = 3, QUICK_RISE = 4, SLOW_RISE = 5,
QUICK_FALL = 6, LIGHT_TICK = 7, LOW_TICK = 8`. -/
def getPrimitiveDetails (cal : Cal) (primitive : ℕ) : Except Status ℕ :=
  if cal.supportedPrimitivesBits &&& (1 <<< primitive) = 0 then .error .unsupportedOperation
  else
    match primitive with
    | 0 => .error .illegalArgument
    | 1 => .ok WAVEFORM_CLICK_INDEX
    | 2 => .ok WAVEFORM_THUD_INDEX
    | 3 => .ok WAVEFORM_SPIN_INDEX
    | 4 => .ok WAVEFORM_QUICK_RISE_INDEX
    | 5 => .ok WAVEFORM_SLOW_RISE_INDEX
    | 6 => .ok WAVEFORM_QUICK_FALL_INDEX
    | 7 => .ok WAVEFORM_LIGHT_TICK_INDEX
    | 8 => .ok WAVEFORM_LOW_TICK_INDEX
    | _ => .error .unsupportedOperation

/-- `aidl CompositeEffect`: `delayMs` is an `int32_t`, `scale` a float. -/
structure CompositeEffect where
  delayMs : ℤ
  primitive : ℕ
  scale : ℚ
deriving DecidableEq, Repr

/-- Loop state of `Vibrator::compose`: the chunk and the (dead)
`uint16_t totalDuration` accumulator. -/
structure CState where
  ch : DspMemChunk
  totalDuration : ℕ
deriving DecidableEq, Repr

/-- One iteration of the `for` loop in `Vibrator::compose`, for current
entry `e` and successor entry `next?` (whose `delayMs` feeds the current
section).  On a validation failure the partially updated state is
returned together with the error; the chunk is never touched on an
error path (all checks precede `constructComposeSegment`). -/
def composeStep (cal : Cal) (st : CState) (e : CompositeEffect)
    (next? : Option CompositeEffect) : CState × Option Status :=
  if e.scale < 0 ∨ e.scale > 1 then (st, some .illegalArgument)
  else
    let details : Except Status (ℕ × ℕ × ℕ) :=
      if e.primitive = 0 then .ok (0, 0, 0)
      else
        match getPrimitiveDetails cal e.primitive with
        | .error s => .error s
        | .ok idx =>
          let maxS := mPrimitiveMaxScale.getD e.primitive 0
          let minS := mPrimitiveMinScale.getD e.primitive 0
          let s1 := if e.scale > maxS then maxS else e.scale
          let s2 := if s1 < minS then minS else s1
          .ok (idx, intensityToVolLevel cal s2 idx, mEffectDurations.getD idx 0)
    match details with
    | .error s => (st, some s)
    | .ok (effectIndex, vol, dur) =>
      let td1 := (st.totalDuration + dur) % 65536
      let ndE : Except Status ℕ :=
        match next? with
        | none => .ok 0
        | some en =>
          if en.delayMs > COMPOSE_DELAY_MAX_MS ∨ en.delayMs < 0 then .error .illegalArgument
          else .ok en.delayMs.toNat
      match ndE with
      | .error s => (⟨st.ch, td1⟩, some s)
      | .ok nd =>
        let td2 := (td1 + nd) % 65536
        if effectIndex = 0 ∧ nd = 0 then (⟨st.ch, td2⟩, some .illegalArgument)
        else (⟨(st.ch.constructComposeSegment vol effectIndex 0 0 nd).1, td2⟩, none)

/-- The `for` loop of `Vibrator::compose`.  On an error the state at the
point of failure is returned and the remaining entries are not
processed (the C++ `return`). -/
def composeLoop (cal : Cal) : CState → List CompositeEffect → CState × Option Status
  | st, [] => (st, none)
  | st, e :: rest =>
    match composeStep cal st e rest.head? with
    | (st', none) => composeLoop cal st' rest
    | (st', some s) => (st', some s)

/-- The chunk state of `Vibrator::compose` just before its entry loop:
the freshly constructed `WAVEFORM_COMPOSE` chunk, plus the synthetic
leading-delay section when the (16-bit truncated) first delay is
nonzero. -/
def composeStart (nextEffectDelay : ℕ) : CState :=
  let ch0 := DspMemChunk.init WAVEFORM_COMPOSE FF_CUSTOM_DATA_LEN_MAX_COMP
  ⟨if nextEffectDelay ≠ 0 then (ch0.constructComposeSegment 0 0 0 0 nextEffectDelay).1 else ch0,
   nextEffectDelay % 65536⟩

/-- `Vibrator::compose`, up to the hand-off to `performEffect`: returns
the finished chunk and the accumulated `totalDuration`, or the status
of the rejection.  Note the source truncates the first entry's
`int32_t delayMs` through `uint16_t nextEffectDelay` *before* the range
check, so `delayMs` enters modulo `2 ^ 16`; the `nextEffectDelay < 0`
arm of that check is vacuous on `uint16_t` and is dropped here. -/
def compose (cal : Cal) (composite : List CompositeEffect) :
    Except Status (DspMemChunk × ℕ) :=
  if composite.length > COMPOSE_SIZE_MAX ∨ composite.isEmpty then .error .illegalArgument
  else
    match composite with
    | [] => .error .illegalArgument  -- unreachable: isEmpty was checked
    | e0 :: _ =>
      let nextEffectDelay := (e0.delayMs.emod 65536).toNat
      if nextEffectDelay > 10000 then .error .illegalArgument
      else
        let size := if nextEffectDelay > 0 then composite.length + 1 else composite.length
        let headerCount := (DspMemChunk.init WAVEFORM_COMPOSE FF_CUSTOM_DATA_LEN_MAX_COMP).size
        match composeLoop cal (composeStart nextEffectDelay) composite with
        | (_, some s) => .error s
        | (st, none) =>
          let ch2 := st.ch.flush.1
          let ur := ch2.updateNSection size
          if ur.2 < 0 then .error .illegalArgument
          else if headerCount = ur.1.size then .error .illegalArgument
          else .ok (ur.1, st.totalDuration)

/-- `aidl ActivePwle` (floats as rationals, `duration` an `int32_t`). -/
structure ActivePwle where
  startAmplitude : ℚ
  startFrequency : ℚ
  endAmplitude : ℚ
  endFrequency : ℚ
  duration : ℤ
deriving DecidableEq, Repr

/-- `aidl BrakingPwle`: `braking` is the `Braking` enum
(`0 = NONE`, `1 = CLAB`). -/
structure BrakingPwle where
  braking : ℕ
  duration : ℤ
deriving DecidableEq, Repr

/-- `aidl PrimitivePwle` union. -/
inductive PrimitivePwle where
  | active (a : ActivePwle)
  | braking (b : BrakingPwle)
deriving DecidableEq, Repr

/-- Loop state of `Vibrator::composePwle`. -/
structure PwleSt where
  segmentIdx : ℕ
  totalDuration : ℕ
  prevEndAmplitude : ℚ
  prevEndFrequency : ℚ
  ch : DspMemChunk
  chirp : Bool
deriving DecidableEq, Repr

/-- One iteration of the `for` loop in `Vibrator::composePwle` (without
the trailing `segmentIdx` overflow check, which `pwleLoop` performs).
`isClabSupported` is false: `getSupportedBraking` always returns the
singleton `{Braking::NONE}`. -/
def pwleStep (st : PwleSt) (e : PrimitivePwle) : PwleSt × Option Status :=
  match e with
  | .active a0 =>
    if a0.duration < 0 ∨ a0.duration > COMPOSE_PWLE_PRIMITIVE_DURATION_MAX_MS then
      (st, some .illegalArgument)
    else if a0.startAmplitude < PWLE_LEVEL_MIN ∨ a0.startAmplitude > PWLE_LEVEL_MAX ∨
        a0.endAmplitude < PWLE_LEVEL_MIN ∨ a0.endAmplitude > PWLE_LEVEL_MAX then
      (st, some .illegalArgument)
    else
      let sAmp := if a0.startAmplitude > CS40L26_PWLE_LEVEL_MAX then CS40L26_PWLE_LEVEL_MAX
                  else a0.startAmplitude
      let eAmp := if a0.endAmplitude > CS40L26_PWLE_LEVEL_MAX then CS40L26_PWLE_LEVEL_MAX
                  else a0.endAmplitude
      if a0.startFrequency < PWLE_FREQUENCY_MIN_HZ ∨ a0.startFrequency > PWLE_FREQUENCY_MAX_HZ ∨
          a0.endFrequency < PWLE_FREQUENCY_MIN_HZ ∨ a0.endFrequency > PWLE_FREQUENCY_MAX_HZ then
        (st, some .illegalArgument)
      else
        let cr1 := st.ch.constructActiveSegment 0 sAmp a0.startFrequency false
        if (¬(sAmp = st.prevEndAmplitude ∧ a0.startFrequency = st.prevEndFrequency)) ∧
            cr1.2 < 0 then
          (st, some Status.illegalArgument)
        else
          let st1 :=
            if ¬(sAmp = st.prevEndAmplitude ∧ a0.startFrequency = st.prevEndFrequency) then
              { st with ch := cr1.1, segmentIdx := st.segmentIdx + 1 }
            else st
          let chirp1 := if a0.startFrequency ≠ a0.endFrequency then true else st1.chirp
          let cr2 := st1.ch.constructActiveSegment a0.duration eAmp a0.endFrequency chirp1
          if cr2.2 < 0 then ({ st1 with chirp := chirp1 }, some .illegalArgument)
          else
            ({ st1 with
                ch := cr2.1, segmentIdx := st1.segmentIdx + 1,
                prevEndAmplitude := eAmp, prevEndFrequency := a0.endFrequency,
                totalDuration := (st1.totalDuration + a0.duration.toNat) % 2 ^ 32,
                chirp := false }, none)
  | .braking b =>
    if b.braking > 1 then (st, some .illegalArgument)
    else if b.braking = 1 then (st, some .illegalArgument)  -- CLAB unsupported
    else if b.duration > COMPOSE_PWLE_PRIMITIVE_DURATION_MAX_MS then (st, some .illegalArgument)
    else
      let cr1 := st.ch.constructBrakingSegment 0 b.braking
      if cr1.2 < 0 then (st, some .illegalArgument)
      else
        let st1 : PwleSt := { st with ch := cr1.1, segmentIdx := st.segmentIdx + 1 }
        let cr2 := st1.ch.constructBrakingSegment b.duration b.braking
        if cr2.2 < 0 then (st1, some .illegalArgument)
        else
          ({ st1 with
              ch := cr2.1, segmentIdx := st1.segmentIdx + 1,
              prevEndAmplitude := -1, prevEndFrequency := -1,
              totalDuration := (st1.totalDuration + b.duration.toNat) % 2 ^ 32 }, none)

/-- The `for` loop of `Vibrator::composePwle`, including the
`segmentIdx > COMPOSE_PWLE_SIZE_MAX_DEFAULT` fail-fast check after each
element. -/
def pwleLoop : PwleSt → List PrimitivePwle → PwleSt × Option Status
  | st, [] => (st, none)
  | st, e :: rest =>
    match pwleStep st e with
    | (st', some s) => (st', some s)
    | (st', none) =>
      if st'.segmentIdx > COMPOSE_PWLE_SIZE_MAX_DEFAULT then (st', some .illegalArgument)
      else pwleLoop st' rest

/-- The initial loop state of `Vibrator::composePwle`
(`resetPreviousEndAmplitudeEndFrequency` sets both trackers to `-1.0`). -/
def pwleInitState : PwleSt :=
  { segmentIdx := 0, totalDuration := 0, prevEndAmplitude := -1, prevEndFrequency := -1,
    ch := DspMemChunk.init WAVEFORM_PWLE FF_CUSTOM_DATA_LEN_MAX_PWLE, chirp := false }

/-- `Vibrator::composePwle`, up to the hand-off to `performEffect`.
`pwleSupported` models the `CAP_COMPOSE_PWLE_EFFECTS` capability test
(OWT free space present and chirp enabled, hardware-dependent). -/
def composePwle (pwleSupported : Bool) (composite : List PrimitivePwle) :
    Except Status DspMemChunk :=
  if pwleSupported = false then .error .unsupportedOperation
  else if composite.isEmpty ∨ composite.length > COMPOSE_PWLE_SIZE_MAX_DEFAULT then
    .error .illegalArgument
  else
    match pwleLoop pwleInitState composite with
    | (_, some s) => .error s
    | (st, none) =>
      let ch1 := st.ch.flush.1
      let td := (st.totalDuration + MAX_COLD_START_LATENCY_MS) % 2 ^ 32
      if td > 0x7FFFF then .error .illegalArgument
      else
        let uw := ch1.updateWLength td
        if uw.2 < 0 then .error .illegalArgument
        else
          let un := uw.1.updateNSection st.segmentIdx
          if un.2 < 0 then .error .illegalArgument
          else .ok un.1

/-- Ordered trace entries for the hardware/adapter calls issued by the
playback state machine. -/
inductive HwAct where
  | uploadOwt (dual : Bool)
  | setFFEffectCall (dual : Bool)
  | setFFPlay (dual : Bool) (idx : ℤ) (play : Bool)
  | setGpioOutput (value : Bool)
  | setFFGain (dual : Bool) (scale : ℤ)
  | setF0Offset (dual : Bool) (value : ℕ)
deriving DecidableEq, Repr

/-- Environment for `Vibrator::on(timeoutMs, effectIndex, ch, callback)`:
the configuration flags and the answers the hardware adapters return.
`uploadOk*` model `HwApi::uploadOwtEffect`; per the spec (§6/§7) a
failed upload is a hardware I/O failure whose `errorStatus` out-value
surfaces as `EX_ILLEGAL_STATE`. -/
structure OnEnv where
  isDual : Bool
  gpioStatus : Bool
  asyncReady : Bool
  owtFreeBase : ℕ
  owtFreeDual : ℕ
  uploadOkBase : Bool
  uploadOkDual : Bool
  setFFEffectOkBase : Bool
  setFFEffectOkDual : Bool
  playOkBase : Bool
  playOkDual : Bool
  gpioSetOk : Bool
deriving DecidableEq, Repr

/-- The play/trigger tail of `Vibrator::on` (from `mActiveId =
effectIndex` to the return), returning the status, the final
`mActiveId` and the completed call trace. -/
def onPlay (env : OnEnv) (effectIndex : ℕ) (tr : List HwAct) :
    Status × ℤ × List HwAct :=
  if ¬env.gpioStatus then
    let tr1 := tr ++ [HwAct.setFFPlay false effectIndex true]
    if ¬env.playOkBase then (.illegalState, -1, tr1)
    else if env.isDual then
      let tr2 := tr1 ++ [HwAct.setFFPlay true effectIndex true]
      if ¬env.playOkDual then (.illegalState, -1, tr2)
      else (.ok, effectIndex, tr2)
    else (.ok, effectIndex, tr1)
  else
    if effectIndex = WAVEFORM_CLICK_INDEX ∨ effectIndex = WAVEFORM_LIGHT_TICK_INDEX then
      let tr1 := tr ++ [HwAct.setFFEffectCall false]
      if ¬env.setFFEffectOkBase then (.illegalState, effectIndex, tr1)
      else
        let tr2 := if env.isDual then tr1 ++ [HwAct.setFFEffectCall true] else tr1
        if env.isDual ∧ ¬env.setFFEffectOkDual then (.illegalState, effectIndex, tr2)
        else
          let tr3 := tr2 ++ [HwAct.setGpioOutput true]
          if ¬env.gpioSetOk then (.illegalState, effectIndex, tr3)
          else (.ok, effectIndex, tr3)
    else
      let tr3 := tr ++ [HwAct.setGpioOutput true]
      if ¬env.gpioSetOk then (.illegalState, effectIndex, tr3)
      else (.ok, effectIndex, tr3)

/-- `Vibrator::on(uint32_t timeoutMs, uint32_t effectIndex, const
DspMemChunk *ch, callback)`, as a function of the adapter answers and
the entry value of `mActiveId`.  Returns (status, final `mActiveId`,
trace of adapter calls).  `timeoutMs` only feeds `replay.length`
updates, which the trace records as `setFFEffectCall`. -/
def onModel (env : OnEnv) (effectIndex0 : ℕ) (chunk? : Option DspMemChunk)
    (activeId : ℤ) : Status × ℤ × List HwAct :=
  if effectIndex0 ≥ FF_MAX_EFFECTS then (.illegalArgument, activeId, [])
  else if ¬env.asyncReady then (.illegalState, activeId, [])
  else
    match chunk? with
    | some c =>
      if c.wtype ≠ WAVEFORM_PWLE ∧ c.wtype ≠ WAVEFORM_COMPOSE then
        (.illegalArgument, activeId, [])
      else if c.size > env.owtFreeBase then (.illegalArgument, activeId, [])
      else if env.isDual ∧ c.size > env.owtFreeDual then (.illegalArgument, activeId, [])
      else
        let tr1 := [HwAct.uploadOwt false]
        if ¬env.uploadOkBase then (.illegalState, activeId, tr1)
        else if env.isDual then
          let tr2 := tr1 ++ [HwAct.uploadOwt true]
          if ¬env.uploadOkDual then (.illegalState, activeId, tr2)
          else onPlay env c.wtype tr2
        else onPlay env c.wtype tr1
    | none =>
      if effectIndex0 = WAVEFORM_SHORT_VIBRATION_EFFECT_INDEX ∨
          effectIndex0 = WAVEFORM_LONG_VIBRATION_EFFECT_INDEX then
        let tr1 := [HwAct.setFFEffectCall false]
        if ¬env.setFFEffectOkBase then (.illegalState, activeId, tr1)
        else if env.isDual then
          let tr2 := tr1 ++ [HwAct.setFFEffectCall true]
          if ¬env.setFFEffectOkDual then (.illegalState, activeId, tr2)
          else onPlay env effectIndex0 tr2
        else onPlay env effectIndex0 tr1
      else onPlay env effectIndex0 []

/-- Ordered events of the completion task `Vibrator::waitForComplete`,
including the state mutation `clearActiveId` (`mActiveId = -1`). -/
inductive WfcEv where
  | pollHaptic
  | pollStopped (dual : Bool)
  | eraseOwt (dual : Bool) (id : ℤ)
  | clearActiveId
  | gpioReset
  | getEffectCount (dual : Bool)
  | eraseAllOwt (dual : Bool)
  | callbackComplete
deriving DecidableEq, Repr

/-- Environment for `waitForComplete`: configuration, the entry value of
`mActiveId`, and the live effect counts the adapters report
(`getEffectCount` leaves its default `WAVEFORM_MAX_PHYSICAL_INDEX` when
the call fails, so only the reported value matters). -/
structure WfcEnv where
  isDual : Bool
  gpioStatus : Bool
  activeId : ℤ
  effectCountBase : ℕ
  effectCountDual : ℕ
  hasCallback : Bool
deriving DecidableEq, Repr

/-- The ordered event trace of `Vibrator::waitForComplete`.  (The final
value of `mActiveId` is `-1` on every path.) -/
def waitForCompleteTrace (env : WfcEnv) : List WfcEv :=
  [WfcEv.pollHaptic, WfcEv.pollStopped false] ++
  (if env.isDual then [WfcEv.pollStopped true] else []) ++
  (if env.activeId ≥ (WAVEFORM_MAX_PHYSICAL_INDEX : ℤ) then
    [WfcEv.eraseOwt false env.activeId] ++
      (if env.isDual then [WfcEv.eraseOwt true env.activeId] else [])
   else []) ++
  [WfcEv.clearActiveId] ++
  (if env.gpioStatus then [WfcEv.gpioReset] else []) ++
  ([WfcEv.getEffectCount false] ++
    (if env.effectCountBase > WAVEFORM_MAX_PHYSICAL_INDEX then [WfcEv.eraseAllOwt false]
     else [])) ++
  (if env.isDual then
    [WfcEv.getEffectCount true] ++
      (if env.effectCountDual > WAVEFORM_MAX_PHYSICAL_INDEX then [WfcEv.eraseAllOwt true]
       else [])
   else []) ++
  (if env.hasCallback then [WfcEv.callbackComplete] else [])

/-- Environment for `Vibrator::off`: configuration and adapter answers. -/
structure OffEnv where
  isDual : Bool
  stopOkBase : Bool
  stopOkDual : Bool
  gpioOk : Bool
  gainOkBase : Bool
  f0Offset : ℕ
  f0OffsetDual : ℕ
deriving DecidableEq, Repr

/-- The mutable session fields touched by `Vibrator::off`:
`mActiveId` and `mLongEffectScale`. -/
structure SessionSt where
  activeId : ℤ
  longEffectScale : ℚ
deriving DecidableEq, Repr

/-- Tail of `Vibrator::off` after the active-effect branch:
`setGlobalAmplitude(false)` (gain back to `VOLTAGE_SCALE_MAX`, scale
reset to 1.0; its status is discarded by `off`), the F0-offset clears,
and the final `ret`-dependent return. -/
def offTail (env : OffEnv) (st : SessionSt) (ret : Bool) (tr : List HwAct) :
    Status × SessionSt × List HwAct :=
  let st1 : SessionSt := { st with longEffectScale := 1 }
  let tr1 := tr ++ [HwAct.setFFGain false (amplitudeToScale (VOLTAGE_SCALE_MAX : ℕ) (VOLTAGE_SCALE_MAX : ℕ))] ++
    (if env.gainOkBase ∧ env.isDual then
      [HwAct.setFFGain true (amplitudeToScale (VOLTAGE_SCALE_MAX : ℕ) (VOLTAGE_SCALE_MAX : ℕ))]
     else [])
  let tr2 := tr1 ++
    (if env.f0Offset ≠ 0 then
      [HwAct.setF0Offset false 0] ++
        (if env.isDual ∧ env.f0OffsetDual ≠ 0 then [HwAct.setF0Offset true 0] else [])
     else [])
  if ret then (.ok, { st1 with activeId := -1 }, tr2)
  else (.illegalState, st1, tr2)

/-- `Vibrator::off`, as a function of the adapter answers and the entry
session state.  Returns (status, final session state, trace). -/
def offModel (env : OffEnv) (st : SessionSt) : Status × SessionSt × List HwAct :=
  if st.activeId ≥ 0 then
    let ret : Bool := env.stopOkBase && (!env.isDual || env.stopOkDual)
    let tr1 := [HwAct.setFFPlay false st.activeId false]
    let tr2 := if env.isDual then tr1 ++ [HwAct.setFFPlay true st.activeId false] else tr1
    let tr3 := tr2 ++ [HwAct.setGpioOutput false]
    if ¬env.gpioOk then (.illegalState, st, tr3)
    else offTail env st ret tr3
  else offTail env st true []

/-- Structural well-formedness of a chunk's committed byte stream: the
length is a multiple of 4 and every aligned 4-byte group starts with a
zero byte (the `write` flush emits one zero byte before the three
accumulated data bytes). -/
def DspMemChunk.wellFormed (ch : DspMemChunk) : Prop :=
  ch.buf.length % 4 = 0 ∧ ∀ i, i % 4 = 0 → ch.buf.getD i 0 = 0

/-! Helper lemmas about the bit writer. -/

theorem writeAux_fields (fuel : ℕ) :
    ∀ (ch : DspMemChunk) (nbits val : ℕ),
    (DspMemChunk.writeAux fuel ch nbits val).1.wtype = ch.wtype ∧
    (DspMemChunk.writeAux fuel ch nbits val).1.cap = ch.cap ∧
    (DspMemChunk.writeAux fuel ch nbits val).1.segs = ch.segs ∧
    ch.buf <+: (DspMemChunk.writeAux fuel ch nbits val).1.buf := by
  induction fuel with
  | zero =>
    intro ch nbits val
    exact ⟨rfl, rfl, rfl, List.prefix_rfl⟩
  | succ f ih =>
    intro ch nbits val
    simp only [DspMemChunk.writeAux]
    split
    · split
      · exact ⟨rfl, rfl, rfl, List.prefix_rfl⟩
      · split
        · obtain ⟨h1, h2, h3, h4⟩ := ih _ (nbits - min (24 - ch.cachebits) nbits) val
          exact ⟨h1, h2, h3, (List.prefix_append _ _).trans h4⟩
        · exact ⟨rfl, rfl, rfl, List.prefix_append _ _⟩
    · split
      · obtain ⟨h1, h2, h3, h4⟩ := ih _ (nbits - min (24 - ch.cachebits) nbits) val
        exact ⟨h1, h2, h3, h4⟩
      · exact ⟨rfl, rfl, rfl, List.prefix_rfl⟩

theorem write_fields (ch : DspMemChunk) (nbits val : ℕ) :
    (ch.write nbits val).1.wtype = ch.wtype ∧
    (ch.write nbits val).1.cap = ch.cap ∧
    (ch.write nbits val).1.segs = ch.segs ∧
    ch.buf <+: (ch.write nbits val).1.buf :=
  writeAux_fields _ ch nbits val

theorem writeAux_spec (fuel : ℕ) :
    ∀ (ch : DspMemChunk) (nbits val : ℕ),
    ch.cachebits < 24 → nbits < fuel →
    ch.buf.length + 4 * ((ch.cachebits + nbits) / 24) ≤ ch.cap →
    (DspMemChunk.writeAux fuel ch nbits val).2 = 0 ∧
    (DspMemChunk.writeAux fuel ch nbits val).1.buf.length
      = ch.buf.length + 4 * ((ch.cachebits + nbits) / 24) ∧
    (DspMemChunk.writeAux fuel ch nbits val).1.cachebits = (ch.cachebits + nbits) % 24 := by
  induction fuel with
  | zero => intro ch nbits val _ h2 _; omega
  | succ f ih =>
    intro ch nbits val hcb hf hcap
    simp only [DspMemChunk.writeAux]
    split
    · rename_i h24
      split
      · rename_i hend
        exfalso
        omega
      · rename_i hend
        split
        · rename_i hnb
          have key := ih
            ({ ch with
                buf := ch.buf ++
                  [((ch.cache <<< min (24 - ch.cachebits) nbits % 2 ^ 32 |||
                        val >>> (nbits - min (24 - ch.cachebits) nbits)) &&& 16777215 &&&
                        4278190080) >>> 24,
                    (((ch.cache <<< min (24 - ch.cachebits) nbits % 2 ^ 32 |||
                        val >>> (nbits - min (24 - ch.cachebits) nbits)) &&& 16777215) <<< 8
                        % 2 ^ 32 &&& 4278190080) >>> 24,
                    ((((ch.cache <<< min (24 - ch.cachebits) nbits % 2 ^ 32 |||
                        val >>> (nbits - min (24 - ch.cachebits) nbits)) &&& 16777215) <<< 8
                        % 2 ^ 32) <<< 8 % 2 ^ 32 &&& 4278190080) >>> 24,
                    (((((ch.cache <<< min (24 - ch.cachebits) nbits % 2 ^ 32 |||
                        val >>> (nbits - min (24 - ch.cachebits) nbits)) &&& 16777215) <<< 8
                        % 2 ^ 32) <<< 8 % 2 ^ 32) <<< 8 % 2 ^ 32 &&& 4278190080) >>> 24],
                cache := (((((ch.cache <<< min (24 - ch.cachebits) nbits % 2 ^ 32 |||
                    val >>> (nbits - min (24 - ch.cachebits) nbits)) &&& 16777215) <<< 8
                    % 2 ^ 32) <<< 8 % 2 ^ 32) <<< 8 % 2 ^ 32) <<< 8 % 2 ^ 32,
                cachebits := 0 })
            (nbits - min (24 - ch.cachebits) nbits) val (by norm_num) (by omega)
            (by dsimp only; simp only [List.length_append, List.length_cons, List.length_nil]
                omega)
          refine ⟨key.1, ?_, ?_⟩
          · rw [key.2.1]
            dsimp only
            simp only [List.length_append, List.length_cons, List.length_nil]
            omega
          · rw [key.2.2]
            dsimp only
            omega
        · rename_i hnb
          refine ⟨rfl, ?_, ?_⟩ <;>
            · dsimp only
              try simp only [List.length_append, List.length_cons, List.length_nil]
              omega
    · rename_i h24
      split
      · rename_i hnb
        exfalso
        omega
      · rename_i hnb
        refine ⟨rfl, ?_, ?_⟩ <;>
          · dsimp only
            omega

theorem write_spec (ch : DspMemChunk) (nbits val : ℕ)
    (hcb : ch.cachebits < 24)
    (hcap : ch.buf.length + 4 * ((ch.cachebits + nbits) / 24) ≤ ch.cap) :
    (ch.write nbits val).2 = 0 ∧
    (ch.write nbits val).1.buf.length
      = ch.buf.length + 4 * ((ch.cachebits + nbits) / 24) ∧
    (ch.write nbits val).1.cachebits = (ch.cachebits + nbits) % 24 :=
  writeAux_spec (nbits + 2) ch nbits val hcb (by omega) hcap

theorem write_full (ch : DspMemChunk) (nbits val : ℕ)
    (hend : ch.buf.length = ch.cap) (hcb : ch.cachebits ≤ 24)
    (hn : 24 ≤ ch.cachebits + nbits) :
    (ch.write nbits val).2 = -28 ∧ (ch.write nbits val).1.buf = ch.buf := by
  have h24 : ch.cachebits + min (24 - ch.cachebits) nbits = 24 := by omega
  simp only [DspMemChunk.write, DspMemChunk.writeAux, h24, hend, eq_self_iff_true, if_true]
  exact ⟨trivial, trivial⟩

theorem mask_hi_zero (x : ℕ) : ((x &&& 16777215) &&& 4278190080) >>> 24 = 0 := by
  have h1 : (x &&& 16777215) &&& 4278190080 ≤ x &&& 16777215 := Nat.and_le_left
  have h2 : x &&& 16777215 ≤ 16777215 := Nat.and_le_right
  rw [Nat.shiftRight_eq_div_pow]
  omega

theorem wf_append_group (l : List ℕ) (b0 b1 b2 b3 : ℕ) (hl : l.length % 4 = 0)
    (hz : ∀ i, i % 4 = 0 → l.getD i 0 = 0) (h0 : b0 = 0) :
    (l ++ [b0, b1, b2, b3]).length % 4 = 0 ∧
    ∀ i, i % 4 = 0 → (l ++ [b0, b1, b2, b3]).getD i 0 = 0 := by
  subst h0
  constructor
  · simp only [List.length_append, List.length_cons, List.length_nil]
    omega
  · intro i hi
    rcases lt_or_ge i l.length with h | h
    · rw [List.getD_append _ _ _ _ h]
      exact hz i hi
    · rcases lt_or_ge i (l.length + 4) with h4 | h4
      · have hieq : i = l.length := by omega
        subst hieq
        rw [List.getD_append_right _ _ _ _ le_rfl, Nat.sub_self]
        rfl
      · exact List.getD_eq_default _ _ (by simp only [List.length_append,
          List.length_cons, List.length_nil]; omega)

theorem writeAux_wf (fuel : ℕ) :
    ∀ (ch : DspMemChunk) (nbits val : ℕ),
    ch.buf.length % 4 = 0 → (∀ i, i % 4 = 0 → ch.buf.getD i 0 = 0) →
    (DspMemChunk.writeAux fuel ch nbits val).1.buf.length % 4 = 0 ∧
    ∀ i, i % 4 = 0 → (DspMemChunk.writeAux fuel ch nbits val).1.buf.getD i 0 = 0 := by
  induction fuel with
  | zero =>
    intro ch nbits val h1 h2
    exact ⟨h1, h2⟩
  | succ f ih =>
    intro ch nbits val h1 h2
    simp only [DspMemChunk.writeAux]
    split
    · split
      · exact ⟨h1, h2⟩
      · split
        · apply ih
          · exact (wf_append_group _ _ _ _ _ h1 h2 (mask_hi_zero _)).1
          · exact (wf_append_group _ _ _ _ _ h1 h2 (mask_hi_zero _)).2
        · exact wf_append_group _ _ _ _ _ h1 h2 (mask_hi_zero _)
    · split
      · exact ih _ _ val h1 h2
      · exact ⟨h1, h2⟩

theorem write_wf (ch : DspMemChunk) (nbits val : ℕ) (h : ch.wellFormed) :
    (ch.write nbits val).1.wellFormed :=
  writeAux_wf _ ch nbits val h.1 h.2

theorem write_fill (ch : DspMemChunk) (nbits val : ℕ)
    (hcb : ch.cachebits < 24) (hfill : ch.cachebits + nbits = 24)
    (hend : ch.buf.length ≠ ch.cap) :
    (ch.write nbits val).2 = 0 ∧
    ∃ b1 b2 b3, (ch.write nbits val).1.buf = ch.buf ++ [0, b1, b2, b3] := by
  have h24 : ch.cachebits + min (24 - ch.cachebits) nbits = 24 := by omega
  have hnb : nbits - min (24 - ch.cachebits) nbits = 0 := by omega
  simp only [DspMemChunk.write, DspMemChunk.writeAux, h24, hnb, hend, eq_self_iff_true,
    if_true, ne_eq, not_true_eq_false, if_false, ite_false, ite_true]
  exact ⟨trivial,
    (((ch.cache <<< min (24 - ch.cachebits) nbits % 2 ^ 32 ||| val >>> 0) &&& 16777215)
        <<< 8 % 2 ^ 32 &&& 4278190080) >>> 24,
    ((((ch.cache <<< min (24 - ch.cachebits) nbits % 2 ^ 32 ||| val >>> 0) &&& 16777215)
        <<< 8 % 2 ^ 32) <<< 8 % 2 ^ 32 &&& 4278190080) >>> 24,
    (((((ch.cache <<< min (24 - ch.cachebits) nbits % 2 ^ 32 ||| val >>> 0) &&& 16777215)
        <<< 8 % 2 ^ 32) <<< 8 % 2 ^ 32) <<< 8 % 2 ^ 32 &&& 4278190080) >>> 24,
    by rw [mask_hi_zero]⟩

/-! Helper lemmas about the segment constructors. -/

theorem fToU16_ok_val (i s lo hi : ℚ) (x : ℕ)
    (h : DspMemChunk.fToU16 i s lo hi = .ok x) :
    x = u16ofZ (roundAway (i * s)) := by
  unfold DspMemChunk.fToU16 at h
  split at h
  · cases h
  · cases h
    rfl

theorem flush_fields (ch : DspMemChunk) :
    (ch.flush).1.wtype = ch.wtype ∧ (ch.flush).1.cap = ch.cap ∧
    (ch.flush).1.segs = ch.segs ∧ ch.buf <+: (ch.flush).1.buf := by
  unfold DspMemChunk.flush
  split
  · exact ⟨rfl, rfl, rfl, List.prefix_rfl⟩
  · exact write_fields ch _ 0

theorem cseg_fields (ch : DspMemChunk) (vol idx rep fl dl : ℕ) :
    (ch.constructComposeSegment vol idx rep fl dl).1.wtype = ch.wtype ∧
    (ch.constructComposeSegment vol idx rep fl dl).1.cap = ch.cap ∧
    (ch.constructComposeSegment vol idx rep fl dl).1.segs = ch.segs ∧
    ch.buf <+: (ch.constructComposeSegment vol idx rep fl dl).1.buf := by
  unfold DspMemChunk.constructComposeSegment
  split
  · exact ⟨rfl, rfl, rfl, List.prefix_rfl⟩
  split
  · exact ⟨rfl, rfl, rfl, List.prefix_rfl⟩
  · have f1 := write_fields ch 8 vol
    have f2 := write_fields (ch.write 8 vol).1 8 idx
    have f3 := write_fields ((ch.write 8 vol).1.write 8 idx).1 8 rep
    have f4 := write_fields (((ch.write 8 vol).1.write 8 idx).1.write 8 rep).1 8 fl
    have f5 := write_fields ((((ch.write 8 vol).1.write 8 idx).1.write 8 rep).1.write 8 fl).1 16 dl
    refine ⟨?_, ?_, ?_, ?_⟩ <;> dsimp only
    · rw [f5.1, f4.1, f3.1, f2.1, f1.1]
    · rw [f5.2.1, f4.2.1, f3.2.1, f2.2.1, f1.2.1]
    · rw [f5.2.2.1, f4.2.2.1, f3.2.2.1, f2.2.2.1, f1.2.2.1]
    · exact f1.2.2.2.trans (f2.2.2.2.trans (f3.2.2.2.trans (f4.2.2.2.trans f5.2.2.2)))

/-- In a valid call, `constructComposeSegment` writes exactly 48 bits:
the byte count grows by 8 and an aligned cache stays aligned. -/
theorem cseg48 (ch : DspMemChunk) (vol idx rep fl dl : ℕ)
    (hcb : ch.cachebits = 0) (hcap : ch.buf.length + 8 ≤ ch.cap) :
    (ch.constructComposeSegment vol idx rep fl dl).1.cachebits = 0 ∧
    ((ch.constructComposeSegment vol idx rep fl dl).1.buf.length = ch.buf.length ∨
     (ch.constructComposeSegment vol idx rep fl dl).1.buf.length = ch.buf.length + 8) := by
  unfold DspMemChunk.constructComposeSegment
  split
  · exact ⟨hcb, Or.inl rfl⟩
  split
  · exact ⟨hcb, Or.inl rfl⟩
  · have f1 := write_fields ch 8 vol
    have s1 := write_spec ch 8 vol (by omega) (by omega)
    have f2 := write_fields (ch.write 8 vol).1 8 idx
    have s2 := write_spec (ch.write 8 vol).1 8 idx (by omega) (by omega)
    have f3 := write_fields ((ch.write 8 vol).1.write 8 idx).1 8 rep
    have s3 := write_spec ((ch.write 8 vol).1.write 8 idx).1 8 rep (by omega) (by omega)
    have f4 := write_fields (((ch.write 8 vol).1.write 8 idx).1.write 8 rep).1 8 fl
    have s4 := write_spec (((ch.write 8 vol).1.write 8 idx).1.write 8 rep).1 8 fl
      (by omega) (by omega)
    have s5 := write_spec ((((ch.write 8 vol).1.write 8 idx).1.write 8 rep).1.write 8 fl).1 16 dl
      (by omega) (by omega)
    refine ⟨?_, Or.inr ?_⟩ <;> (dsimp only; omega)

theorem pseg_segs (ch : DspMemChunk) (d a f fl v : ℕ) :
    (ch.constructPwleSegment d a f fl v).segs = ch.segs ++ [⟨d, a, f, fl⟩] := by
  unfold DspMemChunk.constructPwleSegment
  have f1 := write_fields ch 16 d
  have f2 := write_fields (ch.write 16 d).1 12 a
  have f3 := write_fields ((ch.write 16 d).1.write 12 a).1 12 f
  have f4 := write_fields (((ch.write 16 d).1.write 12 a).1.write 12 f).1 8 ((fl ||| 1) <<< 4)
  split
  · have f5 := write_fields ((((ch.write 16 d).1.write 12 a).1.write 12 f).1.write 8
      ((fl ||| 1) <<< 4)).1 24 v
    dsimp only
    rw [f5.2.2.1, f4.2.2.1, f3.2.2.1, f2.2.2.1, f1.2.2.1]
  · dsimp only
    rw [f4.2.2.1, f3.2.2.1, f2.2.2.1, f1.2.2.1]

theorem pseg_fields (ch : DspMemChunk) (d a f fl v : ℕ) :
    (ch.constructPwleSegment d a f fl v).wtype = ch.wtype ∧
    (ch.constructPwleSegment d a f fl v).cap = ch.cap ∧
    ch.buf <+: (ch.constructPwleSegment d a f fl v).buf := by
  unfold DspMemChunk.constructPwleSegment
  have f1 := write_fields ch 16 d
  have f2 := write_fields (ch.write 16 d).1 12 a
  have f3 := write_fields ((ch.write 16 d).1.write 12 a).1 12 f
  have f4 := write_fields (((ch.write 16 d).1.write 12 a).1.write 12 f).1 8 ((fl ||| 1) <<< 4)
  split
  · have f5 := write_fields ((((ch.write 16 d).1.write 12 a).1.write 12 f).1.write 8
      ((fl ||| 1) <<< 4)).1 24 v
    refine ⟨by dsimp only; rw [f5.1, f4.1, f3.1, f2.1, f1.1],
            by dsimp only; rw [f5.2.1, f4.2.1, f3.2.1, f2.2.1, f1.2.1], ?_⟩
    dsimp only
    exact f1.2.2.2.trans (f2.2.2.2.trans (f3.2.2.2.trans (f4.2.2.2.trans f5.2.2.2)))
  · refine ⟨by dsimp only; rw [f4.1, f3.1, f2.1, f1.1],
            by dsimp only; rw [f4.2.1, f3.2.1, f2.2.1, f1.2.1], ?_⟩
    dsimp only
    exact f1.2.2.2.trans (f2.2.2.2.trans (f3.2.2.2.trans f4.2.2.2))

/-- With the back-EMF flag clear (as in every reachable call),
`constructPwleSegment` writes exactly 48 bits: +8 bytes from a
4-bit-filled cache, which it leaves 4-bit-filled again. -/
theorem pseg48 (ch : DspMemChunk) (d a f fl v : ℕ)
    (hfl : fl &&& PWLE_AMP_REG_BIT = 0)
    (hcb : ch.cachebits = 4) (hcap : ch.buf.length + 8 ≤ ch.cap) :
    (ch.constructPwleSegment d a f fl v).cachebits = 4 ∧
    (ch.constructPwleSegment d a f fl v).buf.length = ch.buf.length + 8 := by
  unfold DspMemChunk.constructPwleSegment
  dsimp only
  rw [if_neg (by simp [hfl])]
  have f1 := write_fields ch 16 d
  have s1 := write_spec ch 16 d (by omega) (by omega)
  have f2 := write_fields (ch.write 16 d).1 12 a
  have s2 := write_spec (ch.write 16 d).1 12 a (by omega) (by omega)
  have f3 := write_fields ((ch.write 16 d).1.write 12 a).1 12 f
  have s3 := write_spec ((ch.write 16 d).1.write 12 a).1 12 f (by omega) (by omega)
  have s4 := write_spec (((ch.write 16 d).1.write 12 a).1.write 12 f).1 8 ((fl ||| 1) <<< 4)
    (by omega) (by omega)
  exact ⟨by omega, by omega⟩

theorem activeSeg_cases (ch : DspMemChunk) (dur : ℤ) (amp freq : ℚ) (chirp : Bool) :
    ((ch.constructActiveSegment dur amp freq chirp).2 < 0 ∧
     (ch.constructActiveSegment dur amp freq chirp).1 = ch) ∨
    ((ch.constructActiveSegment dur amp freq chirp).2 = 0 ∧
     ch.wtype = WAVEFORM_PWLE ∧
     (ch.constructActiveSegment dur amp freq chirp).1 =
       ch.constructPwleSegment (u16ofZ (roundAway (((dur : ℤ) : ℚ) * 4)))
         (u16ofZ (roundAway (amp * 2048))) (u16ofZ (roundAway (freq * 4)))
         (if chirp then PWLE_CHIRP_BIT else 0) 0) := by
  unfold DspMemChunk.constructActiveSegment
  split
  · exact Or.inl ⟨by norm_num, rfl⟩
  · rename_i hw
    rcases h1 : DspMemChunk.fToU16 ((dur : ℤ) : ℚ) 4 0
        ((COMPOSE_PWLE_PRIMITIVE_DURATION_MAX_MS : ℤ) : ℚ) with e1 | d1 <;>
      rcases h2 : DspMemChunk.fToU16 amp 2048 CS40L26_PWLE_LEVEL_MIN
          CS40L26_PWLE_LEVEL_MAX with e2 | a2 <;>
        rcases h3 : DspMemChunk.fToU16 freq 4 PWLE_FREQUENCY_MIN_HZ
            PWLE_FREQUENCY_MAX_HZ with e3 | f3 <;>
          simp only [h1, h2, h3]
    case isFalse.ok.ok.ok =>
      refine Or.inr ⟨by trivial, by omega, ?_⟩
      dsimp only
      rw [fToU16_ok_val _ _ _ _ _ h1, fToU16_ok_val _ _ _ _ _ h2, fToU16_ok_val _ _ _ _ _ h3]
    all_goals exact Or.inl ⟨by norm_num, by trivial⟩

theorem brakingSeg_cases (ch : DspMemChunk) (dur : ℤ) (bk : ℕ) :
    ((ch.constructBrakingSegment dur bk).2 < 0 ∧
     (ch.constructBrakingSegment dur bk).1 = ch) ∨
    ((ch.constructBrakingSegment dur bk).2 = 0 ∧
     ch.wtype = WAVEFORM_PWLE ∧
     ∃ fr, (ch.constructBrakingSegment dur bk).1 =
       ch.constructPwleSegment (u16ofZ (roundAway (((dur : ℤ) : ℚ) * 4))) 0 fr
         (if bk ≠ 0 then PWLE_BRAKE_BIT else 0) 0) := by
  unfold DspMemChunk.constructBrakingSegment
  split
  · exact Or.inl ⟨by norm_num, rfl⟩
  · rename_i hw
    rcases h1 : DspMemChunk.fToU16 ((dur : ℤ) : ℚ) 4 0
        ((COMPOSE_PWLE_PRIMITIVE_DURATION_MAX_MS : ℤ) : ℚ) with e1 | d1 <;>
      simp only [h1]
    case isFalse.ok =>
      refine Or.inr ⟨by trivial, by omega,
        (match DspMemChunk.fToU16 PWLE_FREQUENCY_MIN_HZ 4 PWLE_FREQUENCY_MIN_HZ
            PWLE_FREQUENCY_MAX_HZ with
          | .ok f => f
          | .error _ => 0), ?_⟩
      dsimp only
      rw [fToU16_ok_val _ _ _ _ _ h1]
    all_goals exact Or.inl ⟨by norm_num, by trivial⟩

/-! Arithmetic facts about the rounding helpers. -/

theorem ratFloor_eq (x : ℚ) : ratFloor x = ⌊x⌋ := by
  rw [Rat.floor_def]
  rfl

theorem roundAway_100 : roundAway (100 : ℚ) = 100 := by
  unfold roundAway
  rw [if_neg (by norm_num), ratFloor_eq]
  rw [show (100 : ℚ) + 1/2 = (201 : ℚ)/2 by norm_num]
  rw [show ((201 : ℚ)/2) = ((201 : ℤ) : ℚ) / ((2 : ℕ) : ℚ) by norm_num]
  rw [Rat.floor_intCast_div_natCast]
  norm_num

theorem roundAway_le_100 (r : ℚ) (h : r ≤ 100) : roundAway r ≤ 100 := by
  unfold roundAway
  split
  · rename_i hneg
    rw [ratFloor_eq]
    have : (0 : ℤ) ≤ ⌊-r + 1/2⌋ := Int.le_floor.mpr (by push_cast; linarith)
    omega
  · rw [ratFloor_eq]
    have : ⌊r + 1/2⌋ < 101 := Int.floor_lt.mpr (by push_cast; linarith)
    omega

theorem le_roundAway_100 (r : ℚ) (h : 100 < r) : 100 ≤ roundAway r := by
  unfold roundAway
  rw [if_neg (by linarith), ratFloor_eq]
  exact Int.le_floor.mpr (by push_cast; linarith)

theorem roundAway_zero : roundAway (0 : ℚ) = 0 := by
  unfold roundAway
  rw [if_neg (by norm_num), ratFloor_eq]
  rw [show (0 : ℚ) + 1/2 = ((1 : ℤ) : ℚ) / ((2 : ℕ) : ℚ) by norm_num]
  rw [Rat.floor_intCast_div_natCast]
  norm_num

theorem getD_set_self (l : List ℕ) (i : ℕ) (a : ℕ) (h : i < l.length) :
    (l.set i a).getD i 0 = a := by
  rw [List.getD_eq_getElem?_getD, List.getElem?_set_self h]
  rfl

theorem getD_set_ne (l : List ℕ) (i j : ℕ) (a : ℕ) (h : i ≠ j) :
    (l.set i a).getD j 0 = l.getD j 0 := by
  rw [List.getD_eq_getElem?_getD, List.getElem?_set_ne h, ← List.getD_eq_getElem?_getD]

/-- C5: `amplitudeToScale(amplitude, maximum)` returns
`round(amplitude/maximum * 100)` clamped so that it never exceeds 100,
and returns exactly 100 whenever `maximum` is 0 (division-by-zero
policy, not an error). -/
theorem c5_amplitudeToScale (a m : ℚ) :
    (amplitudeToScale a m = if m = 0 then 100 else min (roundAway (a / m * 100)) 100) ∧
    amplitudeToScale a m ≤ 100 := by
  have key : amplitudeToScale a m
      = if m = 0 then 100 else min (roundAway (a / m * 100)) 100 := by
    unfold amplitudeToScale
    dsimp only
    by_cases hm : m = 0
    · simp [hm, roundAway_100]
    · rw [if_neg hm, if_pos hm]
      by_cases hr : a / m * 100 > 100
      · rw [if_pos (Or.inr hr), roundAway_100, min_eq_right (le_roundAway_100 _ hr)]
      · rw [if_neg (not_or.mpr ⟨hm, hr⟩), min_eq_left (roundAway_le_100 _ (by linarith))]
  refine ⟨key, ?_⟩
  rw [key]
  split
  · norm_num
  · exact min_le_right _ _

/-- C4 counterexample: the claim "rejects any total duration whose
8 kHz-tick-scaled encoding would exceed 19 bits" is false on the code:
65536 ms scales to 65536 * 8 = 0x80000 ticks, which does not fit in 19
bits, yet `updateWLength` accepts it (the code bounds the raw
millisecond value by `0x7FFFF`, not the scaled value). -/
theorem c4_counterexample :
    2 ^ 19 ≤ 65536 * 8 ∧
    ((DspMemChunk.init WAVEFORM_PWLE FF_CUSTOM_DATA_LEN_MAX_PWLE).updateWLength 65536).2 = 0 := by
  constructor
  · norm_num
  · decide

/-- C4 (amended): `updateWLength` succeeds only on a `WAVEFORM_PWLE`
blob; it rejects any total duration whose raw millisecond value exceeds
19 bits (`totalDuration > 0x7FFFF`), and for every accepted duration it
patches bytes 0-3 of the header with the big-endian 8 kHz-tick-scaled
duration (`totalDuration * 8`) OR-ed with the `WT_LEN_CALCD` marker
bit. -/
theorem c4_updateWLength (ch : DspMemChunk) (d : ℕ) (hlen : 4 ≤ ch.buf.length) :
    (ch.wtype ≠ WAVEFORM_PWLE → (ch.updateWLength d).2 ≠ 0 ∧ (ch.updateWLength d).1 = ch) ∧
    (ch.wtype = WAVEFORM_PWLE → 0x7FFFF < d → ch.updateWLength d = (ch, -22)) ∧
    (ch.wtype = WAVEFORM_PWLE → d ≤ 0x7FFFF →
      (ch.updateWLength d).2 = 0 ∧
      (ch.updateWLength d).1.buf.getD 0 0 = ((d * 8 ||| WT_LEN_CALCD) >>> 24) &&& 0xFF ∧
      (ch.updateWLength d).1.buf.getD 1 0 = ((d * 8 ||| WT_LEN_CALCD) >>> 16) &&& 0xFF ∧
      (ch.updateWLength d).1.buf.getD 2 0 = ((d * 8 ||| WT_LEN_CALCD) >>> 8) &&& 0xFF ∧
      (ch.updateWLength d).1.buf.getD 3 0 = (d * 8 ||| WT_LEN_CALCD) &&& 0xFF) := by
  refine ⟨?_, ?_, ?_⟩
  · intro hw
    unfold DspMemChunk.updateWLength
    rw [if_pos hw]
    exact ⟨by norm_num, rfl⟩
  · intro hw hd
    unfold DspMemChunk.updateWLength
    rw [if_neg (by simp [hw]), if_pos hd]
  · intro hw hd
    unfold DspMemChunk.updateWLength
    rw [if_neg (by simp [hw]), if_neg (by omega)]
    dsimp only
    have l0 : ch.buf.length = (ch.buf.set 0 (((d * 8 ||| WT_LEN_CALCD) >>> 24) &&& 0xFF)).length :=
      (List.length_set _ _ _).symm
    refine ⟨rfl, ?_, ?_, ?_, ?_⟩
    · rw [getD_set_ne _ _ _ _ (by norm_num), getD_set_ne _ _ _ _ (by norm_num),
        getD_set_ne _ _ _ _ (by norm_num), getD_set_self _ _ _ (by omega)]
    · rw [getD_set_ne _ _ _ _ (by norm_num), getD_set_ne _ _ _ _ (by norm_num),
        getD_set_self _ _ _ (by simp only [List.length_set]; omega)]
    · rw [getD_set_ne _ _ _ _ (by norm_num),
        getD_set_self _ _ _ (by simp only [List.length_set]; omega)]
    · rw [getD_set_self _ _ _ (by simp only [List.length_set]; omega)]

/-- C4 witness: the amended theorem applied at a freshly constructed
PWLE chunk and an accepted duration of 100 ms. -/
theorem c4_updateWLength_witness :
    4 ≤ (DspMemChunk.init WAVEFORM_PWLE FF_CUSTOM_DATA_LEN_MAX_PWLE).buf.length ∧
    ((DspMemChunk.init WAVEFORM_PWLE FF_CUSTOM_DATA_LEN_MAX_PWLE).updateWLength 100).2 = 0 ∧
    ((DspMemChunk.init WAVEFORM_PWLE FF_CUSTOM_DATA_LEN_MAX_PWLE).updateWLength
      100).1.buf.getD 1 0 = ((100 * 8 ||| WT_LEN_CALCD) >>> 16) &&& 0xFF :=
  ⟨by decide,
   ((c4_updateWLength (DspMemChunk.init WAVEFORM_PWLE FF_CUSTOM_DATA_LEN_MAX_PWLE) 100
      (by decide)).2.2 (by decide) (by decide)).1,
   (((c4_updateWLength (DspMemChunk.init WAVEFORM_PWLE FF_CUSTOM_DATA_LEN_MAX_PWLE) 100
      (by decide)).2.2 (by decide) (by decide)).2).2.1⟩

/-! The compose loop: step characterisation and invariant. -/

theorem composeStep_ch (cal : Cal) (st : CState) (e : CompositeEffect)
    (next? : Option CompositeEffect) :
    (composeStep cal st e next?).1.ch = st.ch ∨
    ∃ vol idx nd, (composeStep cal st e next?).2 = none ∧
      (composeStep cal st e next?).1.ch = (st.ch.constructComposeSegment vol idx 0 0 nd).1 := by
  unfold composeStep
  dsimp only
  repeat' first
    | (exact Or.inl rfl)
    | (exact Or.inr ⟨_, _, _, rfl, rfl⟩)
    | split

theorem composeLoop_inv (cal : Cal) :
    ∀ (l : List CompositeEffect) (st : CState) (k : ℕ),
    st.ch.wtype = WAVEFORM_COMPOSE → st.ch.cap = FF_CUSTOM_DATA_LEN_MAX_COMP →
    st.ch.cachebits = 0 → st.ch.buf.length = 4 + 8 * k → k + l.length ≤ 255 →
    ∃ k', k' ≤ k + l.length ∧
      (composeLoop cal st l).1.ch.wtype = WAVEFORM_COMPOSE ∧
      (composeLoop cal st l).1.ch.cap = FF_CUSTOM_DATA_LEN_MAX_COMP ∧
      (composeLoop cal st l).1.ch.cachebits = 0 ∧
      (composeLoop cal st l).1.ch.buf.length = 4 + 8 * k' := by
  intro l
  induction l with
  | nil =>
    intro st k h1 h2 h3 h4 h5
    exact ⟨k, by omega, h1, h2, h3, h4⟩
  | cons e rest ih =>
    intro st k h1 h2 h3 h4 h5
    simp only [List.length_cons] at h5 ⊢
    have hstep := composeStep_ch cal st e rest.head?
    simp only [composeLoop]
    rcases hr : composeStep cal st e rest.head? with ⟨st', r⟩
    rw [hr] at hstep
    have hfacts : st'.ch.wtype = WAVEFORM_COMPOSE ∧
        st'.ch.cap = FF_CUSTOM_DATA_LEN_MAX_COMP ∧ st'.ch.cachebits = 0 ∧
        (st'.ch.buf.length = 4 + 8 * k ∨ st'.ch.buf.length = 4 + 8 * (k + 1)) := by
      rcases hstep with hsame | ⟨vol, idx, nd, _, hcons⟩
      · dsimp only at hsame
        rw [hsame]
        exact ⟨h1, h2, h3, Or.inl h4⟩
      · dsimp only at hcons
        rw [hcons]
        have hf := cseg_fields st.ch vol idx 0 0 nd
        have hg := cseg48 st.ch vol idx 0 0 nd h3 (by
          rw [h2]
          unfold FF_CUSTOM_DATA_LEN_MAX_COMP
          omega)
        refine ⟨hf.1.trans h1, hf.2.1.trans h2, hg.1, ?_⟩
        rcases hg.2 with hl | hl
        · exact Or.inl (by omega)
        · exact Or.inr (by omega)
    rcases r with _ | s
    · dsimp only
      rcases hfacts.2.2.2 with hl | hl
      · obtain ⟨k', hk', c1, c2, c3, c4⟩ :=
          ih st' k hfacts.1 hfacts.2.1 hfacts.2.2.1 hl (by omega)
        exact ⟨k', by omega, c1, c2, c3, c4⟩
      · obtain ⟨k', hk', c1, c2, c3, c4⟩ :=
          ih st' (k + 1) hfacts.1 hfacts.2.1 hfacts.2.2.1 hl (by omega)
        exact ⟨k', by omega, c1, c2, c3, c4⟩
    · dsimp only
      rcases hfacts.2.2.2 with hl | hl
      · exact ⟨k, by omega, hfacts.1, hfacts.2.1, hfacts.2.2.1, hl⟩
      · exact ⟨k + 1, by omega, hfacts.1, hfacts.2.1, hfacts.2.2.1, hl⟩

theorem composeStart_inv (d : ℕ) :
    (composeStart d).ch.wtype = WAVEFORM_COMPOSE ∧
    (composeStart d).ch.cap = FF_CUSTOM_DATA_LEN_MAX_COMP ∧
    (composeStart d).ch.cachebits = 0 ∧
    ((composeStart d).ch.buf.length = 4 + 8 * 0 ∨
     (composeStart d).ch.buf.length = 4 + 8 * 1) := by
  have hini : (DspMemChunk.init WAVEFORM_COMPOSE FF_CUSTOM_DATA_LEN_MAX_COMP).wtype
        = WAVEFORM_COMPOSE ∧
      (DspMemChunk.init WAVEFORM_COMPOSE FF_CUSTOM_DATA_LEN_MAX_COMP).cap
        = FF_CUSTOM_DATA_LEN_MAX_COMP ∧
      (DspMemChunk.init WAVEFORM_COMPOSE FF_CUSTOM_DATA_LEN_MAX_COMP).cachebits = 0 ∧
      (DspMemChunk.init WAVEFORM_COMPOSE FF_CUSTOM_DATA_LEN_MAX_COMP).buf.length = 4 :=
    ⟨by decide, by decide, by decide, by decide⟩
  unfold composeStart
  dsimp only
  split
  · have hf := cseg_fields (DspMemChunk.init WAVEFORM_COMPOSE FF_CUSTOM_DATA_LEN_MAX_COMP)
      0 0 0 0 d
    have hg := cseg48 (DspMemChunk.init WAVEFORM_COMPOSE FF_CUSTOM_DATA_LEN_MAX_COMP)
      0 0 0 0 d hini.2.2.1 (by rw [hini.2.1, hini.2.2.2]; decide)
    refine ⟨hf.1.trans hini.1, hf.2.1.trans hini.2.1, hg.1, ?_⟩
    rcases hg.2 with hl | hl
    · exact Or.inl (by omega)
    · exact Or.inr (by omega)
  · exact ⟨hini.1, hini.2.1, hini.2.2.1, Or.inl (by omega)⟩

theorem flush_id (ch : DspMemChunk) (h : ch.cachebits = 0) : ch.flush = (ch, 0) := by
  unfold DspMemChunk.flush
  rw [if_pos h]

theorem and_255 (n : ℕ) (h : n ≤ 255) : 255 &&& n = n := by
  rw [Nat.land_comm, show (255 : ℕ) = 2 ^ 8 - 1 from rfl, Nat.and_pow_two_sub_one_eq_mod]
  omega

theorem compose_tail_byte2 (stL : CState) (size : ℕ) (ch : DspMemChunk) (td : ℕ)
    (hw : stL.ch.wtype = WAVEFORM_COMPOSE) (hcb : stL.ch.cachebits = 0)
    (hbl : 4 ≤ stL.ch.buf.length) (hsz : size ≤ 255)
    (h : (if (stL.ch.flush.1.updateNSection size).2 < 0 then
            Except.error Status.illegalArgument
          else if (DspMemChunk.init WAVEFORM_COMPOSE FF_CUSTOM_DATA_LEN_MAX_COMP).size
              = (stL.ch.flush.1.updateNSection size).1.size then
            Except.error Status.illegalArgument
          else Except.ok ((stL.ch.flush.1.updateNSection size).1, stL.totalDuration))
         = Except.ok (ch, td)) :
    ch.buf.getD 2 0 = size := by
  rw [flush_id stL.ch hcb] at h
  dsimp only at h
  unfold DspMemChunk.updateNSection at h
  rw [if_pos hw, if_neg (show ¬size > COMPOSE_SIZE_MAX + 1 by
    unfold COMPOSE_SIZE_MAX
    omega)] at h
  dsimp only at h
  split at h
  · cases h
  · split at h
    · cases h
    · simp only [Except.ok.injEq, Prod.mk.injEq] at h
      rw [← h.1]
      dsimp only
      rw [getD_set_self _ _ _ (by omega), and_255 _ hsz]

/-- C1 (amended): for every composed-effect sequence accepted by
`compose`, the section count patched into byte 2 of the blob header
equals the number of entries plus one if the first entry's `delayMs`
*truncated to 16 bits* is nonzero, and equals the entry count exactly
if that truncated delay is zero.  (The source narrows the `int32_t`
`delayMs` through `uint16_t nextEffectDelay` before both the range
check and the leading-section decision, so only `delayMs mod 2^16`
matters; the unamended claim, stated on the raw `delayMs`, is refuted
by `c1_counterexample`.) -/
theorem c1_section_count (cal : Cal) (e0 : CompositeEffect) (rest : List CompositeEffect)
    (ch : DspMemChunk) (td : ℕ)
    (h : compose cal (e0 :: rest) = .ok (ch, td)) :
    ch.buf.getD 2 0
      = (e0 :: rest).length + (if (e0.delayMs.emod 65536).toNat ≠ 0 then 1 else 0) := by
  unfold compose at h
  split at h
  · cases h
  · rename_i hsz
    rw [not_or] at hsz
    have hlen : (e0 :: rest).length ≤ 254 := by
      have := hsz.1
      unfold COMPOSE_SIZE_MAX at this
      omega
    dsimp only at h
    split at h
    · cases h
    · rename_i hnd
      rcases hloop : composeLoop cal (composeStart (e0.delayMs.emod 65536).toNat) (e0 :: rest)
        with ⟨stL, rL⟩
      rw [hloop] at h
      rcases rL with _ | s
      · dsimp only at h
        have hstart := composeStart_inv (e0.delayMs.emod 65536).toNat
        have hkinv : ∃ k', k' ≤ 255 ∧ stL.ch.wtype = WAVEFORM_COMPOSE ∧
            stL.ch.cachebits = 0 ∧ stL.ch.buf.length = 4 + 8 * k' := by
          rcases hstart.2.2.2 with h0 | h0
          · obtain ⟨k', hk', c1, _, c3, c4⟩ := composeLoop_inv cal (e0 :: rest)
              (composeStart (e0.delayMs.emod 65536).toNat) 0
              hstart.1 hstart.2.1 hstart.2.2.1 h0 (by omega)
            rw [hloop] at c1 c3 c4
            exact ⟨k', by omega, c1, c3, c4⟩
          · obtain ⟨k', hk', c1, _, c3, c4⟩ := composeLoop_inv cal (e0 :: rest)
              (composeStart (e0.delayMs.emod 65536).toNat) 1
              hstart.1 hstart.2.1 hstart.2.2.1 h0 (by omega)
            rw [hloop] at c1 c3 c4
            exact ⟨k', by omega, c1, c3, c4⟩
        obtain ⟨k', hk', hw, hcb, hbl⟩ := hkinv
        by_cases hd0 : (e0.delayMs.emod 65536).toNat > 0
        · rw [if_pos hd0] at h
          rw [compose_tail_byte2 stL ((e0 :: rest).length + 1) ch td hw hcb (by omega)
            (by omega) h]
          rw [if_pos (by omega)]
        · rw [if_neg hd0] at h
          rw [compose_tail_byte2 stL (e0 :: rest).length ch td hw hcb (by omega)
            (by omega) h]
          rw [if_neg (by omega)]
          omega
      · cases h

unseal Rat.add Rat.mul Rat.inv in
/-- C1 counterexample: the claim as stated is false.  The single-entry
sequence `[{delayMs = 65536, CLICK, scale 0}]` is accepted by `compose`
although its first `delayMs` is nonzero, and the section count patched
into header byte 2 is 1 (= the entry count), not 2 (= entry count plus
one): the delay is narrowed to `uint16_t` (65536 mod 2^16 = 0) before
the leading-delay decision. -/
theorem c1_counterexample :
    (65536 : ℤ) ≠ 0 ∧
    (compose ⟨(0, 0), (0, 0), (0, 0), 511⟩ [⟨65536, 1, 0⟩]).toOption.map
      (fun p => p.1.buf.getD 2 0) = some 1 :=
  ⟨by decide, by decide⟩

unseal Rat.add Rat.mul Rat.inv in
/-- C1 witness: the amended theorem applied to a concrete accepted
one-entry composition with zero first delay. -/
theorem c1_section_count_witness :
    compose ⟨(0, 0), (0, 0), (0, 0), 511⟩ [⟨0, 1, 0⟩]
      = .ok ((⟨[0, 0, 1, 0, 0, 0, 2, 0, 0, 0, 0, 0], 2044, 14, 0, 0, []⟩ : DspMemChunk),
             (12 : ℕ)) ∧
    (⟨[0, 0, 1, 0, 0, 0, 2, 0, 0, 0, 0, 0], 2044, 14, 0, 0, []⟩ : DspMemChunk).buf.getD 2 0
      = [(⟨0, 1, 0⟩ : CompositeEffect)].length
        + (if ((0 : ℤ).emod 65536).toNat ≠ 0 then 1 else 0) :=
  ⟨by decide, c1_section_count ⟨(0, 0), (0, 0), (0, 0), 511⟩ ⟨0, 1, 0⟩ []
    (⟨[0, 0, 1, 0, 0, 0, 2, 0, 0, 0, 0, 0], 2044, 14, 0, 0, []⟩ : DspMemChunk) 12 (by decide)⟩

/-- C6: `compose` rejects, before any hardware interaction or state
change (the size check is the first statement of the function and the
model returns without constructing anything), every sequence that is
empty or longer than 254 entries, with `EX_ILLEGAL_ARGUMENT`. -/
theorem c6_compose_rejects_oversize (cal : Cal) (l : List CompositeEffect)
    (h : l = [] ∨ 254 < l.length) :
    compose cal l = .error .illegalArgument := by
  unfold compose
  rw [if_pos]
  rcases h with h | h
  · right
    rw [h]
    rfl
  · left
    unfold COMPOSE_SIZE_MAX
    omega

/-- C6 witness: a sequence of exactly 255 entries is rejected
regardless of content. -/
theorem c6_compose_rejects_oversize_witness :
    (List.replicate 255 (⟨0, 0, 0⟩ : CompositeEffect) = [] ∨
      254 < (List.replicate 255 (⟨0, 0, 0⟩ : CompositeEffect)).length) ∧
    compose ⟨(0, 0), (0, 0), (0, 0), 511⟩ (List.replicate 255 ⟨0, 0, 0⟩)
      = .error .illegalArgument :=
  ⟨Or.inr (by rw [List.length_replicate]; omega),
   c6_compose_rejects_oversize _ _ (Or.inr (by rw [List.length_replicate]; omega))⟩



/-- `constructActiveSegment` preserves the chunk-shape invariant: type and
capacity are untouched, the bit cache stays 4-bit-filled, and the byte
length either stays (with a negative status) or grows by exactly 8. -/
theorem activeSeg_inv (ch : DspMemChunk) (dur : ℤ) (amp freq : ℚ) (c : Bool)
    (hcb : ch.cachebits = 4) (hfit : ch.buf.length + 8 ≤ ch.cap) :
    (ch.constructActiveSegment dur amp freq c).1.wtype = ch.wtype ∧
    (ch.constructActiveSegment dur amp freq c).1.cap = ch.cap ∧
    (ch.constructActiveSegment dur amp freq c).1.cachebits = 4 ∧
    (((ch.constructActiveSegment dur amp freq c).2 < 0 ∧
      (ch.constructActiveSegment dur amp freq c).1.buf.length = ch.buf.length) ∨
     (ch.constructActiveSegment dur amp freq c).1.buf.length = ch.buf.length + 8) := by
  rcases activeSeg_cases ch dur amp freq c with ⟨hneg, heq⟩ | ⟨_, _, heq⟩
  · rw [heq]
    exact ⟨rfl, rfl, hcb, Or.inl ⟨hneg, rfl⟩⟩
  · rw [heq]
    have hfl : (if c then PWLE_CHIRP_BIT else 0) &&& PWLE_AMP_REG_BIT = 0 := by
      cases c <;> decide
    have h48 := pseg48 ch (u16ofZ (roundAway (((dur : ℤ) : ℚ) * 4)))
      (u16ofZ (roundAway (amp * 2048))) (u16ofZ (roundAway (freq * 4)))
      (if c then PWLE_CHIRP_BIT else 0) 0 hfl hcb hfit
    have hf := pseg_fields ch (u16ofZ (roundAway (((dur : ℤ) : ℚ) * 4)))
      (u16ofZ (roundAway (amp * 2048))) (u16ofZ (roundAway (freq * 4)))
      (if c then PWLE_CHIRP_BIT else 0) 0
    exact ⟨hf.1, hf.2.1, h48.1, Or.inr h48.2⟩

/-- `constructBrakingSegment` preserves the same chunk-shape invariant. -/
theorem brakingSeg_inv (ch : DspMemChunk) (dur : ℤ) (bk : ℕ)
    (hcb : ch.cachebits = 4) (hfit : ch.buf.length + 8 ≤ ch.cap) :
    (ch.constructBrakingSegment dur bk).1.wtype = ch.wtype ∧
    (ch.constructBrakingSegment dur bk).1.cap = ch.cap ∧
    (ch.constructBrakingSegment dur bk).1.cachebits = 4 ∧
    (((ch.constructBrakingSegment dur bk).2 < 0 ∧
      (ch.constructBrakingSegment dur bk).1.buf.length = ch.buf.length) ∨
     (ch.constructBrakingSegment dur bk).1.buf.length = ch.buf.length + 8) := by
  rcases brakingSeg_cases ch dur bk with ⟨hneg, heq⟩ | ⟨_, _, fr, heq⟩
  · rw [heq]
    exact ⟨rfl, rfl, hcb, Or.inl ⟨hneg, rfl⟩⟩
  · rw [heq]
    have hfl : (if bk ≠ 0 then PWLE_BRAKE_BIT else 0) &&& PWLE_AMP_REG_BIT = 0 := by
      split <;> decide
    have h48 := pseg48 ch (u16ofZ (roundAway (((dur : ℤ) : ℚ) * 4))) 0 fr
      (if bk ≠ 0 then PWLE_BRAKE_BIT else 0) 0 hfl hcb hfit
    have hf := pseg_fields ch (u16ofZ (roundAway (((dur : ℤ) : ℚ) * 4))) 0 fr
      (if bk ≠ 0 then PWLE_BRAKE_BIT else 0) 0
    exact ⟨hf.1, hf.2.1, h48.1, Or.inr h48.2⟩

/-- One `composePwle` loop iteration preserves the chunk-shape invariant:
the chunk stays a PWLE chunk of capacity `FF_CUSTOM_DATA_LEN_MAX_PWLE`
with a 4-bit-filled cache and byte length `8 + 8 * segmentIdx`, and the
segment index grows by at most 2. -/
theorem pwleStep_inv (st : PwleSt) (e : PrimitivePwle)
    (hw : st.ch.wtype = WAVEFORM_PWLE)
    (hcap : st.ch.cap = FF_CUSTOM_DATA_LEN_MAX_PWLE)
    (hcb : st.ch.cachebits = 4)
    (hlen : st.ch.buf.length = 8 + 8 * st.segmentIdx)
    (hidx : st.segmentIdx ≤ 127) :
    (pwleStep st e).1.ch.wtype = WAVEFORM_PWLE ∧
    (pwleStep st e).1.ch.cap = FF_CUSTOM_DATA_LEN_MAX_PWLE ∧
    (pwleStep st e).1.ch.cachebits = 4 ∧
    (pwleStep st e).1.ch.buf.length = 8 + 8 * (pwleStep st e).1.segmentIdx ∧
    (pwleStep st e).1.segmentIdx ≤ st.segmentIdx + 2 := by
  have hfit1 : st.ch.buf.length + 8 ≤ st.ch.cap := by
    simp only [hlen, hcap, FF_CUSTOM_DATA_LEN_MAX_PWLE]
    omega
  cases e with
  | active a0 =>
    unfold pwleStep
    dsimp only
    split
    · exact ⟨hw, hcap, hcb, hlen, by dsimp only; omega⟩
    split
    · exact ⟨hw, hcap, hcb, hlen, by dsimp only; omega⟩
    split
    · exact ⟨hw, hcap, hcb, hlen, by dsimp only; omega⟩
    generalize (if a0.startAmplitude > CS40L26_PWLE_LEVEL_MAX then CS40L26_PWLE_LEVEL_MAX
      else a0.startAmplitude) = sA
    generalize (if a0.endAmplitude > CS40L26_PWLE_LEVEL_MAX then CS40L26_PWLE_LEVEL_MAX
      else a0.endAmplitude) = eA
    split
    · exact ⟨hw, hcap, hcb, hlen, by dsimp only; omega⟩
    rename_i hc4
    have h1 := activeSeg_inv st.ch 0 sA a0.startFrequency false hcb hfit1
    by_cases hN : ¬(sA = st.prevEndAmplitude ∧ a0.startFrequency = st.prevEndFrequency)
    · simp only [if_pos hN]
      try dsimp only
      have hnn : ¬((st.ch.constructActiveSegment 0 sA a0.startFrequency false).2 < 0) :=
        fun hlt => hc4 ⟨hN, hlt⟩
      have hlen1 : (st.ch.constructActiveSegment 0 sA a0.startFrequency false).1.buf.length
          = st.ch.buf.length + 8 :=
        h1.2.2.2.resolve_left (fun hc => hnn hc.1)
      generalize (if a0.startFrequency ≠ a0.endFrequency then true else st.chirp) = c1
      have hfit2 : (st.ch.constructActiveSegment 0 sA a0.startFrequency false).1.buf.length
          + 8 ≤ (st.ch.constructActiveSegment 0 sA a0.startFrequency false).1.cap := by
        rw [hlen1, h1.2.1, hcap]
        simp only [hlen, FF_CUSTOM_DATA_LEN_MAX_PWLE]
        omega
      have h2 := activeSeg_inv (st.ch.constructActiveSegment 0 sA a0.startFrequency false).1
        a0.duration eA a0.endFrequency c1 h1.2.2.1 hfit2
      split
      · refine ⟨h1.1.trans hw, h1.2.1.trans hcap, h1.2.2.1, ?_, by dsimp only; omega⟩
        dsimp only
        omega
      · rename_i hr2
        have hlen2 := h2.2.2.2.resolve_left (fun hc => hr2 hc.1)
        refine ⟨h2.1.trans (h1.1.trans hw), h2.2.1.trans (h1.2.1.trans hcap),
          h2.2.2.1, ?_, by dsimp only; omega⟩
        dsimp only
        omega
    · simp only [if_neg hN]
      generalize (if a0.startFrequency ≠ a0.endFrequency then true else st.chirp) = c1
      have h2 := activeSeg_inv st.ch a0.duration eA a0.endFrequency c1 hcb hfit1
      split
      · exact ⟨hw, hcap, hcb, hlen, by dsimp only; omega⟩
      · rename_i hr2
        have hlen2 := h2.2.2.2.resolve_left (fun hc => hr2 hc.1)
        refine ⟨h2.1.trans hw, h2.2.1.trans hcap, h2.2.2.1, ?_, by dsimp only; omega⟩
        dsimp only
        omega
  | braking b =>
    unfold pwleStep
    dsimp only
    split
    · exact ⟨hw, hcap, hcb, hlen, by dsimp only; omega⟩
    split
    · exact ⟨hw, hcap, hcb, hlen, by dsimp only; omega⟩
    split
    · exact ⟨hw, hcap, hcb, hlen, by dsimp only; omega⟩
    have h1 := brakingSeg_inv st.ch 0 b.braking hcb hfit1
    split
    · exact ⟨hw, hcap, hcb, hlen, by dsimp only; omega⟩
    · rename_i hr1
      have hlen1 := h1.2.2.2.resolve_left (fun hc => hr1 hc.1)
      try dsimp only
      have hfit2 : (st.ch.constructBrakingSegment 0 b.braking).1.buf.length + 8 ≤
          (st.ch.constructBrakingSegment 0 b.braking).1.cap := by
        rw [hlen1, h1.2.1, hcap]
        simp only [hlen, FF_CUSTOM_DATA_LEN_MAX_PWLE]
        omega
      have h2 := brakingSeg_inv (st.ch.constructBrakingSegment 0 b.braking).1 b.duration
        b.braking h1.2.2.1 hfit2
      split
      · refine ⟨h1.1.trans hw, h1.2.1.trans hcap, h1.2.2.1, ?_, by dsimp only; omega⟩
        dsimp only
        omega
      · rename_i hr2
        have hlen2 := h2.2.2.2.resolve_left (fun hc => hr2 hc.1)
        refine ⟨h2.1.trans (h1.1.trans hw), h2.2.1.trans (h1.2.1.trans hcap),
          h2.2.2.1, ?_, by dsimp only; omega⟩
        dsimp only
        omega

/-- The `composePwle` loop keeps the chunk a PWLE chunk of capacity
`FF_CUSTOM_DATA_LEN_MAX_PWLE` with byte length `8 + 8 * segmentIdx` and
segment index at most 129 (two segments past the 127 fail-fast bound). -/
theorem pwleLoop_inv :
    ∀ (l : List PrimitivePwle) (st : PwleSt),
    st.ch.wtype = WAVEFORM_PWLE → st.ch.cap = FF_CUSTOM_DATA_LEN_MAX_PWLE →
    st.ch.cachebits = 4 → st.ch.buf.length = 8 + 8 * st.segmentIdx →
    st.segmentIdx ≤ 127 →
    (pwleLoop st l).1.ch.wtype = WAVEFORM_PWLE ∧
    (pwleLoop st l).1.ch.cap = FF_CUSTOM_DATA_LEN_MAX_PWLE ∧
    (pwleLoop st l).1.ch.cachebits = 4 ∧
    (pwleLoop st l).1.ch.buf.length = 8 + 8 * (pwleLoop st l).1.segmentIdx ∧
    (pwleLoop st l).1.segmentIdx ≤ 129 := by
  intro l
  induction l with
  | nil =>
    intro st h1 h2 h3 h4 h5
    simp only [pwleLoop]
    exact ⟨h1, h2, h3, h4, by omega⟩
  | cons e rest ih =>
    intro st h1 h2 h3 h4 h5
    have hstep := pwleStep_inv st e h1 h2 h3 h4 h5
    simp only [pwleLoop]
    rcases hr : pwleStep st e with ⟨st2, r⟩
    rw [hr] at hstep
    dsimp only at hstep
    rcases r with _ | sr
    · dsimp only
      split
      · exact ⟨hstep.1, hstep.2.1, hstep.2.2.1, hstep.2.2.2.1, by
          have := hstep.2.2.2.2
          try dsimp only
          omega⟩
      · rename_i hle
        refine ih st2 hstep.1 hstep.2.1 hstep.2.2.1 hstep.2.2.2.1 ?_
        simp only [COMPOSE_PWLE_SIZE_MAX_DEFAULT] at hle
        omega
    · dsimp only
      exact ⟨hstep.1, hstep.2.1, hstep.2.2.1, hstep.2.2.2.1, by
        have := hstep.2.2.2.2
        try dsimp only
        omega⟩

theorem updateWLength_len (ch : DspMemChunk) (d : ℕ) :
    (ch.updateWLength d).1.buf.length = ch.buf.length ∧
    (ch.updateWLength d).1.cap = ch.cap := by
  unfold DspMemChunk.updateWLength
  repeat' split
  all_goals simp [List.length_set]

theorem updateNSection_len (ch : DspMemChunk) (i : ℕ) :
    (ch.updateNSection i).1.buf.length = ch.buf.length ∧
    (ch.updateNSection i).1.cap = ch.cap := by
  unfold DspMemChunk.updateNSection
  repeat' split
  all_goals simp [List.length_set]

theorem flush_len (ch : DspMemChunk) (hcb : ch.cachebits = 4)
    (hfit : ch.buf.length + 4 ≤ ch.cap) :
    ch.flush.1.buf.length = ch.buf.length + 4 ∧ ch.flush.1.cap = ch.cap := by
  unfold DspMemChunk.flush
  rw [if_neg (by omega)]
  have hs := write_spec ch (24 - ch.cachebits) 0 (by omega) (by omega)
  have hf := write_fields ch (24 - ch.cachebits) 0
  refine ⟨?_, hf.2.1⟩
  rw [hs.2.1]
  omega

theorem compose_tail_len (stL : CState) (size : ℕ) (ch : DspMemChunk) (td : ℕ)
    (hcb : stL.ch.cachebits = 0)
    (h : (if (stL.ch.flush.1.updateNSection size).2 < 0 then
            Except.error Status.illegalArgument
          else if (DspMemChunk.init WAVEFORM_COMPOSE FF_CUSTOM_DATA_LEN_MAX_COMP).size
              = (stL.ch.flush.1.updateNSection size).1.size then
            Except.error Status.illegalArgument
          else Except.ok ((stL.ch.flush.1.updateNSection size).1, stL.totalDuration))
         = Except.ok (ch, td)) :
    ch.buf.length = stL.ch.buf.length ∧ ch.cap = stL.ch.cap := by
  rw [flush_id stL.ch hcb] at h
  dsimp only at h
  split at h
  · cases h
  · split at h
    · cases h
    · simp only [Except.ok.injEq, Prod.mk.injEq] at h
      rw [← h.1]
      exact updateNSection_len stL.ch size

/-- C3: the write cursor never passes the fixed capacity.  Every loop
state of `compose` (from any starting delay) and of `composePwle` keeps
the byte length within the chunk capacity, every chunk the two entry
points actually return satisfies `size ≤ capacity`, and a `write` that
arrives with a full buffer and a group to emit fails with `-ENOSPC`
(-28) leaving the buffer untouched. -/
theorem c3_cursor_within_capacity (cal : Cal) (d : ℕ) (l : List CompositeEffect)
    (p : List PrimitivePwle) (sup : Bool) (ch : DspMemChunk) (td : ℕ)
    (chp : DspMemChunk) (w : DspMemChunk) (nbits val : ℕ)
    (hl : l.length ≤ COMPOSE_SIZE_MAX)
    (hok : compose cal l = .ok (ch, td))
    (hokp : composePwle sup p = .ok chp)
    (hfull : w.buf.length = w.cap) (hwcb : w.cachebits ≤ 24)
    (hnb : 24 ≤ w.cachebits + nbits) :
    (composeLoop cal (composeStart d) l).1.ch.buf.length
      ≤ (composeLoop cal (composeStart d) l).1.ch.cap ∧
    (pwleLoop pwleInitState p).1.ch.buf.length
      ≤ (pwleLoop pwleInitState p).1.ch.cap ∧
    ch.buf.length ≤ ch.cap ∧
    chp.buf.length ≤ chp.cap ∧
    (w.write nbits val).2 = -28 ∧ (w.write nbits val).1.buf = w.buf := by
  have hl254 : l.length ≤ 254 := by
    unfold COMPOSE_SIZE_MAX at hl
    omega
  have part1 : (composeLoop cal (composeStart d) l).1.ch.buf.length
      ≤ (composeLoop cal (composeStart d) l).1.ch.cap := by
    have hstart := composeStart_inv d
    rcases hstart.2.2.2 with h0 | h0
    · obtain ⟨k2, hk2, _, c2, _, c4⟩ := composeLoop_inv cal l (composeStart d) 0
        hstart.1 hstart.2.1 hstart.2.2.1 h0 (by omega)
      rw [c4, c2]
      simp only [FF_CUSTOM_DATA_LEN_MAX_COMP]
      omega
    · obtain ⟨k2, hk2, _, c2, _, c4⟩ := composeLoop_inv cal l (composeStart d) 1
        hstart.1 hstart.2.1 hstart.2.2.1 h0 (by omega)
      rw [c4, c2]
      simp only [FF_CUSTOM_DATA_LEN_MAX_COMP]
      omega
  have part2 : (pwleLoop pwleInitState p).1.ch.buf.length
      ≤ (pwleLoop pwleInitState p).1.ch.cap := by
    obtain ⟨_, c2, _, c4, c5⟩ := pwleLoop_inv p pwleInitState (by decide) (by decide)
      (by decide) (by decide) (by decide)
    rw [c4, c2]
    simp only [FF_CUSTOM_DATA_LEN_MAX_PWLE]
    omega
  have part3 : ch.buf.length ≤ ch.cap := by
    rcases l with _ | ⟨e0, rest⟩
    · unfold compose at hok
      split at hok
      · cases hok
      · dsimp only at hok
        cases hok
    · unfold compose at hok
      split at hok
      · cases hok
      · rename_i hsz
        dsimp only at hok
        split at hok
        · cases hok
        · rcases hloop : composeLoop cal (composeStart (e0.delayMs.emod 65536).toNat)
            (e0 :: rest) with ⟨stL, rL⟩
          rw [hloop] at hok
          rcases rL with _ | s
          · dsimp only at hok
            have hstart := composeStart_inv (e0.delayMs.emod 65536).toNat
            have hkinv : ∃ k2, k2 ≤ 255 ∧ stL.ch.cap = FF_CUSTOM_DATA_LEN_MAX_COMP ∧
                stL.ch.cachebits = 0 ∧ stL.ch.buf.length = 4 + 8 * k2 := by
              rcases hstart.2.2.2 with h0 | h0
              · obtain ⟨k2, hk2, _, c2, c3, c4⟩ := composeLoop_inv cal (e0 :: rest)
                  (composeStart (e0.delayMs.emod 65536).toNat) 0
                  hstart.1 hstart.2.1 hstart.2.2.1 h0 (by
                    simp only [List.length_cons] at hl254 ⊢
                    omega)
                rw [hloop] at c2 c3 c4
                exact ⟨k2, by simp only [List.length_cons] at hl254 hk2; omega, c2, c3, c4⟩
              · obtain ⟨k2, hk2, _, c2, c3, c4⟩ := composeLoop_inv cal (e0 :: rest)
                  (composeStart (e0.delayMs.emod 65536).toNat) 1
                  hstart.1 hstart.2.1 hstart.2.2.1 h0 (by
                    simp only [List.length_cons] at hl254 ⊢
                    omega)
                rw [hloop] at c2 c3 c4
                exact ⟨k2, by simp only [List.length_cons] at hl254 hk2; omega, c2, c3, c4⟩
            obtain ⟨k2, hk2, hcapL, hcbL, hblL⟩ := hkinv
            by_cases hd0 : (e0.delayMs.emod 65536).toNat > 0
            · rw [if_pos hd0] at hok
              have htail := compose_tail_len stL ((e0 :: rest).length + 1) ch td hcbL hok
              rw [htail.1, htail.2, hblL, hcapL]
              simp only [FF_CUSTOM_DATA_LEN_MAX_COMP]
              omega
            · rw [if_neg hd0] at hok
              have htail := compose_tail_len stL (e0 :: rest).length ch td hcbL hok
              rw [htail.1, htail.2, hblL, hcapL]
              simp only [FF_CUSTOM_DATA_LEN_MAX_COMP]
              omega
          · cases hok
  have part4 : chp.buf.length ≤ chp.cap := by
    unfold composePwle at hokp
    split at hokp
    · cases hokp
    · split at hokp
      · cases hokp
      · rcases hloop : pwleLoop pwleInitState p with ⟨stP, rP⟩
        rw [hloop] at hokp
        rcases rP with _ | s
        · dsimp only at hokp
          obtain ⟨_, c2, c3, c4, c5⟩ := pwleLoop_inv p pwleInitState (by decide) (by decide)
            (by decide) (by decide) (by decide)
          rw [hloop] at c2 c3 c4 c5
          dsimp only at c2 c3 c4 c5
          split at hokp
          · cases hokp
          · split at hokp
            · cases hokp
            · split at hokp
              · cases hokp
              · simp only [Except.ok.injEq] at hokp
                subst hokp
                have hfl := flush_len stP.ch c3 (by
                  rw [c4, c2]
                  simp only [FF_CUSTOM_DATA_LEN_MAX_PWLE]
                  omega)
                have huw := updateWLength_len stP.ch.flush.1
                  ((stP.totalDuration + MAX_COLD_START_LATENCY_MS) % 2 ^ 32)
                have hun := updateNSection_len
                  (stP.ch.flush.1.updateWLength
                    ((stP.totalDuration + MAX_COLD_START_LATENCY_MS) % 2 ^ 32)).1
                  stP.segmentIdx
                rw [hun.1, hun.2, huw.1, huw.2, hfl.1, hfl.2, c4, c2]
                simp only [FF_CUSTOM_DATA_LEN_MAX_PWLE]
                omega
        · cases hokp
  exact ⟨part1, part2, part3, part4, (write_full w nbits val hfull hwcb hnb).1,
    (write_full w nbits val hfull hwcb hnb).2⟩

unseal Rat.add Rat.mul Rat.inv in
/-- C3 witness: the capacity theorem applied to a concrete accepted
composition, a concrete accepted PWLE composition, and a concrete full
chunk. -/
theorem c3_cursor_within_capacity_witness :
    compose ⟨(0, 0), (0, 0), (0, 0), 511⟩ [⟨0, 1, 0⟩]
      = .ok ((⟨[0, 0, 1, 0, 0, 0, 2, 0, 0, 0, 0, 0], 2044, 14, 0, 0, []⟩ : DspMemChunk),
             (12 : ℕ)) ∧
    composePwle true [.braking ⟨0, 100⟩]
      = .ok (⟨[0, 128, 3, 80, 0, 0, 0, 0, 0, 32, 0, 0, 0, 0, 0, 65, 0, 0, 25, 0, 0, 0, 0, 65,
               0, 0, 0, 0], 2302, 15, 0, 0,
              [⟨0, 0, 4, 0⟩, ⟨400, 0, 4, 0⟩]⟩ : DspMemChunk) ∧
    ((composeLoop ⟨(0, 0), (0, 0), (0, 0), 511⟩ (composeStart 0) [⟨0, 1, 0⟩]).1.ch.buf.length
       ≤ (composeLoop ⟨(0, 0), (0, 0), (0, 0), 511⟩ (composeStart 0) [⟨0, 1, 0⟩]).1.ch.cap ∧
     (pwleLoop pwleInitState [.braking ⟨0, 100⟩]).1.ch.buf.length
       ≤ (pwleLoop pwleInitState [.braking ⟨0, 100⟩]).1.ch.cap ∧
     (⟨[0, 0, 1, 0, 0, 0, 2, 0, 0, 0, 0, 0], 2044, 14, 0, 0, []⟩ : DspMemChunk).buf.length
       ≤ (⟨[0, 0, 1, 0, 0, 0, 2, 0, 0, 0, 0, 0], 2044, 14, 0, 0, []⟩ : DspMemChunk).cap ∧
     (⟨[0, 128, 3, 80, 0, 0, 0, 0, 0, 32, 0, 0, 0, 0, 0, 65, 0, 0, 25, 0, 0, 0, 0, 65,
        0, 0, 0, 0], 2302, 15, 0, 0,
       [⟨0, 0, 4, 0⟩, ⟨400, 0, 4, 0⟩]⟩ : DspMemChunk).buf.length
       ≤ (⟨[0, 128, 3, 80, 0, 0, 0, 0, 0, 32, 0, 0, 0, 0, 0, 65, 0, 0, 25, 0, 0, 0, 0, 65,
            0, 0, 0, 0], 2302, 15, 0, 0,
           [⟨0, 0, 4, 0⟩, ⟨400, 0, 4, 0⟩]⟩ : DspMemChunk).cap ∧
     ((⟨[], 0, 14, 0, 4, []⟩ : DspMemChunk).write 20 0).2 = -28 ∧
     ((⟨[], 0, 14, 0, 4, []⟩ : DspMemChunk).write 20 0).1.buf
       = (⟨[], 0, 14, 0, 4, []⟩ : DspMemChunk).buf) :=
  ⟨by decide, by decide,
   c3_cursor_within_capacity ⟨(0, 0), (0, 0), (0, 0), 511⟩ 0 [⟨0, 1, 0⟩]
     [.braking ⟨0, 100⟩] true
     (⟨[0, 0, 1, 0, 0, 0, 2, 0, 0, 0, 0, 0], 2044, 14, 0, 0, []⟩ : DspMemChunk) 12
     (⟨[0, 128, 3, 80, 0, 0, 0, 0, 0, 32, 0, 0, 0, 0, 0, 65, 0, 0, 25, 0, 0, 0, 0, 65,
        0, 0, 0, 0], 2302, 15, 0, 0,
       [⟨0, 0, 4, 0⟩, ⟨400, 0, 4, 0⟩]⟩ : DspMemChunk)
     (⟨[], 0, 14, 0, 4, []⟩ : DspMemChunk) 20 0
     (by decide) (by decide) (by decide) (by decide) (by decide) (by decide)⟩

unseal Rat.add Rat.mul Rat.inv in
theorem u16_roundAway_zero4 : u16ofZ (roundAway (((0 : ℤ) : ℚ) * 4)) = 0 := by decide

/-- C2: in every loop iteration of `composePwle` that accepts an active
segment, exactly one zero-duration set-point segment is pushed
immediately before the segment's ramp when the (level-clamped) start
amplitude or the start frequency differs from the previously tracked
end point, and no set-point segment is pushed when both equal the
tracked end values.  The tracked point starts (and restarts after a
braking segment) at (-1, -1), so the first active segment always gets a
set-point. -/
theorem c2_setpoint_emission (st : PwleSt) (a : ActivePwle)
    (h : (pwleStep st (.active a)).2 = none) :
    if ¬((if a.startAmplitude > CS40L26_PWLE_LEVEL_MAX then CS40L26_PWLE_LEVEL_MAX
            else a.startAmplitude) = st.prevEndAmplitude ∧
         a.startFrequency = st.prevEndFrequency) then
      ∃ fl, (pwleStep st (.active a)).1.ch.segs
        = st.ch.segs
          ++ [⟨0, u16ofZ (roundAway ((if a.startAmplitude > CS40L26_PWLE_LEVEL_MAX
                  then CS40L26_PWLE_LEVEL_MAX else a.startAmplitude) * 2048)),
               u16ofZ (roundAway (a.startFrequency * 4)), 0⟩,
              ⟨u16ofZ (roundAway ((a.duration : ℚ) * 4)),
               u16ofZ (roundAway ((if a.endAmplitude > CS40L26_PWLE_LEVEL_MAX
                  then CS40L26_PWLE_LEVEL_MAX else a.endAmplitude) * 2048)),
               u16ofZ (roundAway (a.endFrequency * 4)), fl⟩]
    else
      ∃ fl, (pwleStep st (.active a)).1.ch.segs
        = st.ch.segs
          ++ [⟨u16ofZ (roundAway ((a.duration : ℚ) * 4)),
               u16ofZ (roundAway ((if a.endAmplitude > CS40L26_PWLE_LEVEL_MAX
                  then CS40L26_PWLE_LEVEL_MAX else a.endAmplitude) * 2048)),
               u16ofZ (roundAway (a.endFrequency * 4)), fl⟩] := by
  revert h
  unfold pwleStep
  dsimp only
  by_cases h1 : a.duration < 0 ∨ a.duration > COMPOSE_PWLE_PRIMITIVE_DURATION_MAX_MS
  · rw [if_pos h1]
    intro h
    simp at h
  rw [if_neg h1]
  by_cases h2 : a.startAmplitude < PWLE_LEVEL_MIN ∨ a.startAmplitude > PWLE_LEVEL_MAX ∨
      a.endAmplitude < PWLE_LEVEL_MIN ∨ a.endAmplitude > PWLE_LEVEL_MAX
  · rw [if_pos h2]
    intro h
    simp at h
  rw [if_neg h2]
  by_cases h3 : a.startFrequency < PWLE_FREQUENCY_MIN_HZ ∨
      a.startFrequency > PWLE_FREQUENCY_MAX_HZ ∨
      a.endFrequency < PWLE_FREQUENCY_MIN_HZ ∨ a.endFrequency > PWLE_FREQUENCY_MAX_HZ
  · rw [if_pos h3]
    intro h
    simp at h
  rw [if_neg h3]
  generalize (if a.startAmplitude > CS40L26_PWLE_LEVEL_MAX then CS40L26_PWLE_LEVEL_MAX
    else a.startAmplitude) = sA
  generalize (if a.endAmplitude > CS40L26_PWLE_LEVEL_MAX then CS40L26_PWLE_LEVEL_MAX
    else a.endAmplitude) = eA
  by_cases hc4 : (¬(sA = st.prevEndAmplitude ∧ a.startFrequency = st.prevEndFrequency)) ∧
      (st.ch.constructActiveSegment 0 sA a.startFrequency false).2 < 0
  · rw [if_pos hc4]
    intro h
    simp at h
  rw [if_neg hc4]
  by_cases hN : ¬(sA = st.prevEndAmplitude ∧ a.startFrequency = st.prevEndFrequency)
  · rw [if_pos hN, if_pos hN]
    try dsimp only
    generalize (if a.startFrequency ≠ a.endFrequency then true else st.chirp) = c1
    have hnn : ¬((st.ch.constructActiveSegment 0 sA a.startFrequency false).2 < 0) :=
      fun hlt => hc4 ⟨hN, hlt⟩
    rcases activeSeg_cases st.ch 0 sA a.startFrequency false with ⟨hlt, _⟩ | ⟨_, _, heq1⟩
    · exact absurd hlt hnn
    by_cases hr2 : ((st.ch.constructActiveSegment 0 sA
        a.startFrequency false).1.constructActiveSegment a.duration eA a.endFrequency c1).2 < 0
    · rw [if_pos hr2]
      intro h
      simp at h
    rw [if_neg hr2]
    intro h
    rcases activeSeg_cases (st.ch.constructActiveSegment 0 sA a.startFrequency false).1
        a.duration eA a.endFrequency c1 with ⟨hlt, _⟩ | ⟨_, _, heq2⟩
    · exact absurd hlt hr2
    refine ⟨if c1 then PWLE_CHIRP_BIT else 0, ?_⟩
    dsimp only
    rw [heq2, pseg_segs, heq1, pseg_segs, List.append_assoc, u16_roundAway_zero4]
    try rfl
  · rw [if_neg hN, if_neg hN]
    try dsimp only
    generalize (if a.startFrequency ≠ a.endFrequency then true else st.chirp) = c1
    by_cases hr2 : (st.ch.constructActiveSegment a.duration eA a.endFrequency c1).2 < 0
    · rw [if_pos hr2]
      intro h
      simp at h
    rw [if_neg hr2]
    intro h
    rcases activeSeg_cases st.ch a.duration eA a.endFrequency c1
      with ⟨hlt, _⟩ | ⟨_, _, heq2⟩
    · exact absurd hlt hr2
    refine ⟨if c1 then PWLE_CHIRP_BIT else 0, ?_⟩
    dsimp only
    rw [heq2, pseg_segs]

unseal Rat.add Rat.mul Rat.inv in
/-- C2 witness: the set-point theorem applied to the first active
segment of a fresh PWLE composition (tracked end point still at the
reset values), which therefore gets a set-point segment. -/
theorem c2_setpoint_emission_witness :
    (pwleStep pwleInitState (.active ⟨mkRat 1 2, 50, mkRat 1 2, 50, 100⟩)).2 = none ∧
    (if ¬((if (mkRat 1 2 : ℚ) > CS40L26_PWLE_LEVEL_MAX then CS40L26_PWLE_LEVEL_MAX
             else (mkRat 1 2 : ℚ)) = pwleInitState.prevEndAmplitude ∧
          (50 : ℚ) = pwleInitState.prevEndFrequency) then
       ∃ fl, (pwleStep pwleInitState
           (.active ⟨mkRat 1 2, 50, mkRat 1 2, 50, 100⟩)).1.ch.segs
         = pwleInitState.ch.segs
           ++ [⟨0, u16ofZ (roundAway ((if (mkRat 1 2 : ℚ) > CS40L26_PWLE_LEVEL_MAX
                   then CS40L26_PWLE_LEVEL_MAX else (mkRat 1 2 : ℚ)) * 2048)),
                u16ofZ (roundAway ((50 : ℚ) * 4)), 0⟩,
               ⟨u16ofZ (roundAway (((100 : ℤ) : ℚ) * 4)),
                u16ofZ (roundAway ((if (mkRat 1 2 : ℚ) > CS40L26_PWLE_LEVEL_MAX
                   then CS40L26_PWLE_LEVEL_MAX else (mkRat 1 2 : ℚ)) * 2048)),
                u16ofZ (roundAway ((50 : ℚ) * 4)), fl⟩]
     else
       ∃ fl, (pwleStep pwleInitState
           (.active ⟨mkRat 1 2, 50, mkRat 1 2, 50, 100⟩)).1.ch.segs
         = pwleInitState.ch.segs
           ++ [⟨u16ofZ (roundAway (((100 : ℤ) : ℚ) * 4)),
                u16ofZ (roundAway ((if (mkRat 1 2 : ℚ) > CS40L26_PWLE_LEVEL_MAX
                   then CS40L26_PWLE_LEVEL_MAX else (mkRat 1 2 : ℚ)) * 2048)),
                u16ofZ (roundAway ((50 : ℚ) * 4)), fl⟩]) :=
  ⟨by decide,
   c2_setpoint_emission pwleInitState ⟨mkRat 1 2, 50, mkRat 1 2, 50, 100⟩ (by decide)⟩

/-- C7: in dual-actuator mode, when the OWT upload to the secondary
actuator fails after the primary actuator's upload succeeded, `on`
returns `EX_ILLEGAL_STATE`, `mActiveId` keeps its entry value (the
session stays idle), and the trace holds only the two upload attempts:
no playback trigger (`setFFPlay`), no GPIO trigger, no effect call. -/
theorem c7_dual_upload_failure (env : OnEnv) (e0 : ℕ) (c : DspMemChunk) (aid : ℤ)
    (hdual : env.isDual = true) (hub : env.uploadOkBase = true)
    (hud : env.uploadOkDual = false) (hasync : env.asyncReady = true)
    (he : e0 < FF_MAX_EFFECTS)
    (hw : c.wtype = WAVEFORM_PWLE ∨ c.wtype = WAVEFORM_COMPOSE)
    (hsb : c.size ≤ env.owtFreeBase) (hsd : c.size ≤ env.owtFreeDual) :
    onModel env e0 (some c) aid
      = (.illegalState, aid, [HwAct.uploadOwt false, HwAct.uploadOwt true]) := by
  unfold onModel
  rw [if_neg (by omega), if_neg (by simp [hasync])]
  dsimp only
  rw [if_neg (by
        rintro ⟨ha, hb⟩
        rcases hw with h | h
        · exact ha h
        · exact hb h),
      if_neg (by omega),
      if_neg (by
        rintro ⟨_, hgt⟩
        omega),
      if_neg (by simp [hub]), if_pos hdual, if_pos (by simp [hud])]
  rfl

/-- C7 witness: a concrete dual-mode environment whose secondary upload
fails after a successful primary upload. -/
theorem c7_dual_upload_failure_witness :
    (⟨true, false, true, 100, 100, true, false, true, true, true, true,
      true⟩ : OnEnv).isDual = true ∧
    (⟨true, false, true, 100, 100, true, false, true, true, true, true,
      true⟩ : OnEnv).uploadOkBase = true ∧
    (⟨true, false, true, 100, 100, true, false, true, true, true, true,
      true⟩ : OnEnv).uploadOkDual = false ∧
    (DspMemChunk.init WAVEFORM_PWLE FF_CUSTOM_DATA_LEN_MAX_PWLE).size ≤ 100 ∧
    onModel ⟨true, false, true, 100, 100, true, false, true, true, true, true, true⟩ 0
        (some (DspMemChunk.init WAVEFORM_PWLE FF_CUSTOM_DATA_LEN_MAX_PWLE)) (-1)
      = (.illegalState, -1, [HwAct.uploadOwt false, HwAct.uploadOwt true]) :=
  ⟨rfl, rfl, rfl, by decide,
   c7_dual_upload_failure ⟨true, false, true, 100, 100, true, false, true, true, true, true,
       true⟩ 0 (DspMemChunk.init WAVEFORM_PWLE FF_CUSTOM_DATA_LEN_MAX_PWLE) (-1)
     rfl rfl rfl rfl (by decide) (Or.inl (by decide)) (by decide) (by decide)⟩

/-- C8 counterexample: the claim as stated is false.  In the completion
task with a dynamic active effect (id 14), GPIO reset pending and a
stale-free actuator, the `mActiveId = -1` clear happens *before* the
GPIO reset (and before the stale-slot sweep), not last: its trace index
is strictly smaller. -/
theorem c8_counterexample :
    (waitForCompleteTrace ⟨false, true, 14, 0, 0, false⟩).indexOf WfcEv.clearActiveId
      < (waitForCompleteTrace ⟨false, true, 14, 0, 0, false⟩).indexOf WfcEv.gpioReset ∧
    (waitForCompleteTrace ⟨false, true, 14, 0, 0, false⟩).indexOf WfcEv.clearActiveId
      < (waitForCompleteTrace ⟨false, true, 14, 0, 0, false⟩).indexOf
          (WfcEv.getEffectCount false) := by
  decide

/-- C8 (amended): in the completion task, the active-id clear is not the
last cleanup step but the *middle* one: every trace splits as
`pre ++ [clearActiveId] ++ post` where the completed-slot erases (and
only they, besides the polls) lie in `pre`, while the GPIO reset, the
stale-slot recovery sweep (`getEffectCount` / `eraseAllOwt`) and the
completion callback all lie in `post`. -/
theorem c8_clear_position (env : WfcEnv) :
    ∃ pre post,
      waitForCompleteTrace env = pre ++ WfcEv.clearActiveId :: post ∧
      WfcEv.clearActiveId ∉ pre ∧ WfcEv.clearActiveId ∉ post ∧
      (∀ d i, WfcEv.eraseOwt d i ∉ post) ∧
      WfcEv.gpioReset ∉ pre ∧
      (∀ d, WfcEv.getEffectCount d ∉ pre) ∧
      (∀ d, WfcEv.eraseAllOwt d ∉ pre) ∧
      WfcEv.callbackComplete ∉ pre := by
  rcases env with ⟨d, g, a, cb, cd, hc⟩
  refine ⟨[WfcEv.pollHaptic, WfcEv.pollStopped false] ++
      (if d then [WfcEv.pollStopped true] else []) ++
      (if a ≥ (WAVEFORM_MAX_PHYSICAL_INDEX : ℤ) then
        [WfcEv.eraseOwt false a] ++ (if d then [WfcEv.eraseOwt true a] else [])
       else []),
    (if g then [WfcEv.gpioReset] else []) ++
      ([WfcEv.getEffectCount false] ++
        (if cb > WAVEFORM_MAX_PHYSICAL_INDEX then [WfcEv.eraseAllOwt false] else [])) ++
      (if d then
        [WfcEv.getEffectCount true] ++
          (if cd > WAVEFORM_MAX_PHYSICAL_INDEX then [WfcEv.eraseAllOwt true] else [])
       else []) ++
      (if hc then [WfcEv.callbackComplete] else []), ?_, ?_, ?_, ?_, ?_, ?_, ?_, ?_⟩ <;>
    (try unfold waitForCompleteTrace) <;>
    cases d <;> cases g <;> cases hc <;>
    by_cases ha : a ≥ (WAVEFORM_MAX_PHYSICAL_INDEX : ℤ) <;>
    by_cases hcb : cb > WAVEFORM_MAX_PHYSICAL_INDEX <;>
    by_cases hcd : cd > WAVEFORM_MAX_PHYSICAL_INDEX <;>
    simp [ha, hcb, hcd]

/-- C9 (amended): calling `off` with no active effect (`mActiveId = -1`)
always returns success, keeps the active id at "none", and issues no
stop (`setFFPlay`) and no GPIO call; a second call returns the same
result (idempotence).  But it is not a complete no-op on session state:
it resets `mLongEffectScale` to 1 (via `setGlobalAmplitude(false)`) and
re-issues the gain restore, so when the scale differed from 1 the
session state *does* change (see the counterexample). -/
theorem c9_off_idle (env : OffEnv) (s : ℚ) :
    (offModel env ⟨-1, s⟩).1 = .ok ∧
    (offModel env ⟨-1, s⟩).2.1.activeId = -1 ∧
    (offModel env ⟨-1, s⟩).2.1.longEffectScale = 1 ∧
    (∀ d i p, HwAct.setFFPlay d i p ∉ (offModel env ⟨-1, s⟩).2.2) ∧
    (∀ b, HwAct.setGpioOutput b ∉ (offModel env ⟨-1, s⟩).2.2) ∧
    (offModel env (offModel env ⟨-1, s⟩).2.1).2.1 = (offModel env ⟨-1, s⟩).2.1 := by
  have hred : ∀ t : ℚ, offModel env ⟨-1, t⟩
      = (.ok, (⟨-1, 1⟩ : SessionSt),
         ([HwAct.setFFGain false
             (amplitudeToScale (VOLTAGE_SCALE_MAX : ℕ) (VOLTAGE_SCALE_MAX : ℕ))] ++
           (if env.gainOkBase ∧ env.isDual then
             [HwAct.setFFGain true
               (amplitudeToScale (VOLTAGE_SCALE_MAX : ℕ) (VOLTAGE_SCALE_MAX : ℕ))]
            else [])) ++
          (if env.f0Offset ≠ 0 then
            [HwAct.setF0Offset false 0] ++
              (if env.isDual ∧ env.f0OffsetDual ≠ 0 then [HwAct.setF0Offset true 0] else [])
           else [])) := by
    intro t
    rfl
  refine ⟨by rw [hred], by rw [hred], by rw [hred], ?_, ?_, ?_⟩
  · intro d i p
    rw [hred]
    dsimp only
    by_cases h1 : env.gainOkBase ∧ env.isDual <;>
      by_cases h2 : env.f0Offset ≠ 0 <;>
        by_cases h3 : env.isDual ∧ env.f0OffsetDual ≠ 0 <;>
          simp [h1, h2, h3]
  · intro b
    rw [hred]
    dsimp only
    by_cases h1 : env.gainOkBase ∧ env.isDual <;>
      by_cases h2 : env.f0Offset ≠ 0 <;>
        by_cases h3 : env.isDual ∧ env.f0OffsetDual ≠ 0 <;>
          simp [h1, h2, h3]
  · rw [hred s]
    dsimp only
    rw [hred 1]

unseal Rat.add Rat.mul Rat.inv in
/-- C9 counterexample: the claim as stated is false.  With no active
effect but a long-effect scale of 1/2 (reachable via `setAmplitude`
while idle), `off` succeeds but *changes* the session state: the scale
is reset to 1. -/
theorem c9_counterexample :
    ((-1 : ℤ) < 0) ∧
    (offModel ⟨false, true, true, true, true, 0, 0⟩ ⟨-1, mkRat 1 2⟩).1 = .ok ∧
    (offModel ⟨false, true, true, true, true, 0, 0⟩ ⟨-1, mkRat 1 2⟩).2.1
      ≠ ⟨-1, mkRat 1 2⟩ :=
  ⟨by decide, by decide, by decide⟩

theorem or_byte_hi_zero (d : ℕ) (hd : d ≤ 0x7FFFF) :
    ((d * 8 ||| WT_LEN_CALCD) >>> 24) &&& 0xFF = 0 := by
  have h3 : d * 8 ||| WT_LEN_CALCD < 2 ^ 24 :=
    Nat.or_lt_two_pow (by omega) (by decide)
  have h4 : (d * 8 ||| WT_LEN_CALCD) >>> 24 = 0 := by
    rw [Nat.shiftRight_eq_div_pow]
    omega
  rw [h4]
  rfl

theorem updateWLength_wf (ch : DspMemChunk) (d : ℕ) (h : ch.wellFormed) :
    (ch.updateWLength d).1.wellFormed := by
  unfold DspMemChunk.updateWLength
  split
  · exact h
  · split
    · exact h
    · rename_i hw hd
      dsimp only
      refine ⟨by simp only [List.length_set]; exact h.1, ?_⟩
      intro i hi
      by_cases h0 : i = 0
      · subst h0
        rw [getD_set_ne _ _ _ _ (by omega), getD_set_ne _ _ _ _ (by omega),
            getD_set_ne _ _ _ _ (by omega)]
        rcases Nat.eq_zero_or_pos ch.buf.length with hb | hb
        · rw [List.getD_eq_default]
          simp only [List.length_set]
          omega
        · rw [getD_set_self _ _ _ (by simpa using hb)]
          exact or_byte_hi_zero d (by omega)
      · rw [getD_set_ne _ _ _ _ (by omega), getD_set_ne _ _ _ _ (by omega),
            getD_set_ne _ _ _ _ (by omega), getD_set_ne _ _ _ _ (by omega)]
        exact h.2 i hi

theorem updateNSection_wf (ch : DspMemChunk) (idx : ℕ) (h : ch.wellFormed) :
    (ch.updateNSection idx).1.wellFormed := by
  unfold DspMemChunk.updateNSection
  split
  · split
    · exact h
    · dsimp only
      refine ⟨by simp only [List.length_set]; exact h.1, ?_⟩
      intro i hi
      rw [getD_set_ne _ _ _ _ (by omega)]
      exact h.2 i hi
  · split
    · split
      · exact h
      · dsimp only
        refine ⟨by simp only [List.length_set]; exact h.1, ?_⟩
        intro i hi
        rw [getD_set_ne _ _ _ _ (by omega), getD_set_ne _ _ _ _ (by omega)]
        exact h.2 i hi
    · exact h

theorem flush_wf (ch : DspMemChunk) (h : ch.wellFormed) : ch.flush.1.wellFormed := by
  unfold DspMemChunk.flush
  split
  · exact h
  · exact write_wf _ _ _ h

theorem init_wf (t c : ℕ) : (DspMemChunk.init t c).wellFormed := by
  have h0 : (⟨[], c, t, 0, 0, []⟩ : DspMemChunk).wellFormed :=
    ⟨rfl, fun i _ => by simp⟩
  unfold DspMemChunk.init
  dsimp only
  split
  · exact write_wf _ _ _ (write_wf _ _ _ (write_wf _ _ _ h0))
  · split
    · exact write_wf _ _ _ (write_wf _ _ _ (write_wf _ _ _ (write_wf _ _ _ h0)))
    · exact h0

theorem cseg_wf (ch : DspMemChunk) (vol idx rep fl dl : ℕ) (h : ch.wellFormed) :
    (ch.constructComposeSegment vol idx rep fl dl).1.wellFormed := by
  unfold DspMemChunk.constructComposeSegment
  split
  · exact h
  · split
    · exact h
    · dsimp only
      exact write_wf _ _ _ (write_wf _ _ _ (write_wf _ _ _ (write_wf _ _ _
        (write_wf _ _ _ h))))

theorem wf_segs (ch : DspMemChunk) (sg : List PwleSeg) (h : ch.wellFormed) :
    DspMemChunk.wellFormed { ch with segs := sg } := h

theorem pseg_wf (ch : DspMemChunk) (d a f fl v : ℕ) (h : ch.wellFormed) :
    (ch.constructPwleSegment d a f fl v).wellFormed := by
  unfold DspMemChunk.constructPwleSegment
  dsimp only
  split
  · exact wf_segs _ _ (write_wf _ _ _ (write_wf _ _ _ (write_wf _ _ _ (write_wf _ _ _
      (write_wf _ _ _ h)))))
  · exact wf_segs _ _ (write_wf _ _ _ (write_wf _ _ _ (write_wf _ _ _ (write_wf _ _ _ h))))

theorem activeSeg_wf (ch : DspMemChunk) (dur : ℤ) (amp freq : ℚ) (c : Bool)
    (h : ch.wellFormed) : (ch.constructActiveSegment dur amp freq c).1.wellFormed := by
  rcases activeSeg_cases ch dur amp freq c with ⟨_, heq⟩ | ⟨_, _, heq⟩ <;> rw [heq]
  · exact h
  · exact pseg_wf _ _ _ _ _ _ h

theorem brakingSeg_wf (ch : DspMemChunk) (dur : ℤ) (bk : ℕ)
    (h : ch.wellFormed) : (ch.constructBrakingSegment dur bk).1.wellFormed := by
  rcases brakingSeg_cases ch dur bk with ⟨_, heq⟩ | ⟨_, _, fr, heq⟩ <;> rw [heq]
  · exact h
  · exact pseg_wf _ _ _ _ _ _ h

theorem pwleStep_wf (st : PwleSt) (e : PrimitivePwle) (h : st.ch.wellFormed) :
    (pwleStep st e).1.ch.wellFormed := by
  cases e with
  | active a0 =>
    unfold pwleStep
    dsimp only
    split
    · exact h
    split
    · exact h
    split
    · exact h
    generalize (if a0.startAmplitude > CS40L26_PWLE_LEVEL_MAX then CS40L26_PWLE_LEVEL_MAX
      else a0.startAmplitude) = sA
    generalize (if a0.endAmplitude > CS40L26_PWLE_LEVEL_MAX then CS40L26_PWLE_LEVEL_MAX
      else a0.endAmplitude) = eA
    split
    · exact h
    by_cases hN : ¬(sA = st.prevEndAmplitude ∧ a0.startFrequency = st.prevEndFrequency)
    · simp only [if_pos hN]
      try dsimp only
      generalize (if a0.startFrequency ≠ a0.endFrequency then true else st.chirp) = c1
      split
      · exact activeSeg_wf _ _ _ _ _ h
      · exact activeSeg_wf _ _ _ _ _ (activeSeg_wf _ _ _ _ _ h)
    · simp only [if_neg hN]
      try dsimp only
      generalize (if a0.startFrequency ≠ a0.endFrequency then true else st.chirp) = c1
      split
      · exact h
      · exact activeSeg_wf _ _ _ _ _ h
  | braking b =>
    unfold pwleStep
    dsimp only
    split
    · exact h
    split
    · exact h
    split
    · exact h
    split
    · exact h
    · try dsimp only
      split
      · exact brakingSeg_wf _ _ _ h
      · exact brakingSeg_wf _ _ _ (brakingSeg_wf _ _ _ h)

theorem pwleLoop_wf : ∀ (l : List PrimitivePwle) (st : PwleSt), st.ch.wellFormed →
    (pwleLoop st l).1.ch.wellFormed := by
  intro l
  induction l with
  | nil =>
    intro st h
    exact h
  | cons e rest ih =>
    intro st h
    have hstep := pwleStep_wf st e h
    simp only [pwleLoop]
    rcases hr : pwleStep st e with ⟨st2, r⟩
    rw [hr] at hstep
    rcases r with _ | sr
    · dsimp only
      split
      · exact hstep
      · exact ih st2 hstep
    · exact hstep

theorem composeStep_wf (cal : Cal) (st : CState) (e : CompositeEffect)
    (next? : Option CompositeEffect) (h : st.ch.wellFormed) :
    (composeStep cal st e next?).1.ch.wellFormed := by
  rcases composeStep_ch cal st e next? with hsame | ⟨vol, idx, nd, _, hcons⟩
  · rw [hsame]
    exact h
  · rw [hcons]
    exact cseg_wf _ _ _ _ _ _ h

theorem composeLoop_wf (cal : Cal) :
    ∀ (l : List CompositeEffect) (st : CState), st.ch.wellFormed →
    (composeLoop cal st l).1.ch.wellFormed := by
  intro l
  induction l with
  | nil =>
    intro st h
    exact h
  | cons e rest ih =>
    intro st h
    have hstep := composeStep_wf cal st e rest.head? h
    simp only [composeLoop]
    rcases hr : composeStep cal st e rest.head? with ⟨st2, r⟩
    rw [hr] at hstep
    rcases r with _ | sr
    · exact ih st2 hstep
    · exact hstep

theorem composeStart_wf (d : ℕ) : (composeStart d).ch.wellFormed := by
  unfold composeStart
  dsimp only
  split
  · exact cseg_wf _ _ _ _ _ _ (init_wf _ _)
  · exact init_wf _ _

theorem compose_tail_eq (stL : CState) (size : ℕ) (ch : DspMemChunk) (td : ℕ)
    (h : (if (stL.ch.flush.1.updateNSection size).2 < 0 then
            Except.error Status.illegalArgument
          else if (DspMemChunk.init WAVEFORM_COMPOSE FF_CUSTOM_DATA_LEN_MAX_COMP).size
              = (stL.ch.flush.1.updateNSection size).1.size then
            Except.error Status.illegalArgument
          else Except.ok ((stL.ch.flush.1.updateNSection size).1, stL.totalDuration))
         = Except.ok (ch, td)) :
    ch = (stL.ch.flush.1.updateNSection size).1 := by
  split at h
  · cases h
  · split at h
    · cases h
    · simp only [Except.ok.injEq, Prod.mk.injEq] at h
      exact h.1.symm

theorem compose_result_wf (cal : Cal) (l : List CompositeEffect) (ch : DspMemChunk) (td : ℕ)
    (hok : compose cal l = .ok (ch, td)) : ch.wellFormed := by
  rcases l with _ | ⟨e0, rest⟩
  · unfold compose at hok
    split at hok
    · cases hok
    · dsimp only at hok
      cases hok
  · unfold compose at hok
    split at hok
    · cases hok
    · dsimp only at hok
      split at hok
      · cases hok
      · rcases hloop : composeLoop cal (composeStart (e0.delayMs.emod 65536).toNat)
          (e0 :: rest) with ⟨stL, rL⟩
        rw [hloop] at hok
        rcases rL with _ | sq
        · dsimp only at hok
          have hwf : stL.ch.wellFormed := by
            have := composeLoop_wf cal (e0 :: rest)
              (composeStart (e0.delayMs.emod 65536).toNat)
              (composeStart_wf (e0.delayMs.emod 65536).toNat)
            rw [hloop] at this
            exact this
          by_cases hd0 : (e0.delayMs.emod 65536).toNat > 0
          · rw [if_pos hd0] at hok
            rw [compose_tail_eq stL ((e0 :: rest).length + 1) ch td hok]
            exact updateNSection_wf _ _ (flush_wf _ hwf)
          · rw [if_neg hd0] at hok
            rw [compose_tail_eq stL (e0 :: rest).length ch td hok]
            exact updateNSection_wf _ _ (flush_wf _ hwf)
        · cases hok
  
theorem composePwle_result_wf (sup : Bool) (p : List PrimitivePwle) (chp : DspMemChunk)
    (hok : composePwle sup p = .ok chp) : chp.wellFormed := by
  unfold composePwle at hok
  split at hok
  · cases hok
  · split at hok
    · cases hok
    · rcases hloop : pwleLoop pwleInitState p with ⟨stP, rP⟩
      rw [hloop] at hok
      rcases rP with _ | sq
      · dsimp only at hok
        have hwf : stP.ch.wellFormed := by
          have := pwleLoop_wf p pwleInitState (init_wf _ _)
          rw [hloop] at this
          exact this
        split at hok
        · cases hok
        · split at hok
          · cases hok
          · split at hok
            · cases hok
            · simp only [Except.ok.injEq] at hok
              subst hok
              exact updateNSection_wf _ _ (updateWLength_wf _ _ (flush_wf _ hwf))
      · cases hok

/-- C10: when the 24-bit accumulator fills, `write` emits exactly one
4-byte group — a zero byte followed by the three accumulated data
bytes — and the byte length grows by 4; consequently every chunk the
code builds is well formed: its size is a multiple of 4 and every
aligned 4-byte group begins with a 0x00 byte.  Well-formedness holds
for freshly constructed chunks, is preserved by `write`, `flush` and
both header back-patches, and holds for every blob `compose` or
`composePwle` returns. -/
theorem c10_aligned_groups (t c : ℕ) (w ch : DspMemChunk) (nbits val d i : ℕ)
    (cal : Cal) (l : List CompositeEffect) (sup : Bool) (p : List PrimitivePwle)
    (chC : DspMemChunk) (td : ℕ) (chP : DspMemChunk)
    (hw1 : w.cachebits < 24) (hw2 : w.cachebits + nbits = 24) (hw3 : w.buf.length ≠ w.cap)
    (hch : ch.wellFormed)
    (hok : compose cal l = .ok (chC, td)) (hokp : composePwle sup p = .ok chP) :
    ((w.write nbits val).2 = 0 ∧
     ∃ b1 b2 b3, (w.write nbits val).1.buf = w.buf ++ [0, b1, b2, b3]) ∧
    (DspMemChunk.init t c).wellFormed ∧
    (ch.write nbits val).1.wellFormed ∧
    ch.flush.1.wellFormed ∧
    (ch.updateWLength d).1.wellFormed ∧
    (ch.updateNSection i).1.wellFormed ∧
    chC.wellFormed ∧ chP.wellFormed :=
  ⟨write_fill w nbits val hw1 hw2 hw3, init_wf t c, write_wf ch nbits val hch,
   flush_wf ch hch, updateWLength_wf ch d hch, updateNSection_wf ch i hch,
   compose_result_wf cal l chC td hok, composePwle_result_wf sup p chP hokp⟩

unseal Rat.add Rat.mul Rat.inv in
/-- C10 witness: the alignment theorem applied to a concrete chunk with
a filled accumulator, a concrete well-formed chunk, and the concrete
accepted compositions. -/
theorem c10_aligned_groups_witness :
    ((⟨[], 4, 15, 0, 4, []⟩ : DspMemChunk).cachebits < 24 ∧
     (⟨[], 4, 15, 0, 4, []⟩ : DspMemChunk).cachebits + 20 = 24 ∧
     (⟨[], 4, 15, 0, 4, []⟩ : DspMemChunk).buf.length
       ≠ (⟨[], 4, 15, 0, 4, []⟩ : DspMemChunk).cap ∧
     compose ⟨(0, 0), (0, 0), (0, 0), 511⟩ [⟨0, 1, 0⟩]
       = .ok ((⟨[0, 0, 1, 0, 0, 0, 2, 0, 0, 0, 0, 0], 2044, 14, 0, 0, []⟩ : DspMemChunk), (12 : ℕ)) ∧
     composePwle true [.braking ⟨0, 100⟩]
       = .ok (⟨[0, 128, 3, 80, 0, 0, 0, 0, 0, 32, 0, 0, 0, 0, 0, 65, 0, 0, 25, 0, 0, 0, 0, 65,
       0, 0, 0, 0], 2302, 15, 0, 0, [⟨0, 0, 4, 0⟩, ⟨400, 0, 4, 0⟩]⟩ : DspMemChunk)) ∧
    (((⟨[], 4, 15, 0, 4, []⟩ : DspMemChunk).write 20 5).2 = 0 ∧
     ∃ b1 b2 b3, ((⟨[], 4, 15, 0, 4, []⟩ : DspMemChunk).write 20 5).1.buf
       = (⟨[], 4, 15, 0, 4, []⟩ : DspMemChunk).buf ++ [0, b1, b2, b3]) ∧
    (DspMemChunk.init 15 2302).wellFormed ∧
    ((DspMemChunk.init WAVEFORM_COMPOSE FF_CUSTOM_DATA_LEN_MAX_COMP).write 20 5).1.wellFormed ∧
    (DspMemChunk.init WAVEFORM_COMPOSE FF_CUSTOM_DATA_LEN_MAX_COMP).flush.1.wellFormed ∧
    ((DspMemChunk.init WAVEFORM_COMPOSE
        FF_CUSTOM_DATA_LEN_MAX_COMP).updateWLength 7).1.wellFormed ∧
    ((DspMemChunk.init WAVEFORM_COMPOSE
        FF_CUSTOM_DATA_LEN_MAX_COMP).updateNSection 3).1.wellFormed ∧
    ((⟨[0, 0, 1, 0, 0, 0, 2, 0, 0, 0, 0, 0], 2044, 14, 0, 0, []⟩ : DspMemChunk)).wellFormed ∧
    ((⟨[0, 128, 3, 80, 0, 0, 0, 0, 0, 32, 0, 0, 0, 0, 0, 65, 0, 0, 25, 0, 0, 0, 0, 65,
       0, 0, 0, 0], 2302, 15, 0, 0, [⟨0, 0, 4, 0⟩, ⟨400, 0, 4, 0⟩]⟩ : DspMemChunk)).wellFormed :=
  ⟨⟨by decide, by decide, by decide, by decide, by decide⟩,
   c10_aligned_groups 15 2302 ⟨[], 4, 15, 0, 4, []⟩
     (DspMemChunk.init WAVEFORM_COMPOSE FF_CUSTOM_DATA_LEN_MAX_COMP) 20 5 7 3
     ⟨(0, 0), (0, 0), (0, 0), 511⟩ [⟨0, 1, 0⟩] true [.braking ⟨0, 100⟩]
     (⟨[0, 0, 1, 0, 0, 0, 2, 0, 0, 0, 0, 0], 2044, 14, 0, 0, []⟩ : DspMemChunk) 12
     (⟨[0, 128, 3, 80, 0, 0, 0, 0, 0, 32, 0, 0, 0, 0, 0, 65, 0, 0, 25, 0, 0, 0, 0, 65,
       0, 0, 0, 0], 2302, 15, 0, 0, [⟨0, 0, 4, 0⟩, ⟨400, 0, 4, 0⟩]⟩ : DspMemChunk)
     (by decide) (by decide) (by decide)
     (init_wf WAVEFORM_COMPOSE FF_CUSTOM_DATA_LEN_MAX_COMP)
     (by decide) (by decide)⟩

end Vib
